import Mathlib

/-!
Shallow embedding of the "clever support" core of `MyViewer.cpp`
(overhang classifier, support-point sampler, tree router, strut mesher),
together with theorems settling the specification claims.

Doubles are idealised as real numbers; division by zero follows Lean's
convention (`x / 0 = 0`), which is noted wherever it matters.
-/

open Real

noncomputable section

namespace CleverSupport

/-- 3-D vector, mirroring `qglviewer::Vec` (three doubles). -/
structure Vec where
  x : ℝ
  y : ℝ
  z : ℝ
deriving DecidableEq

namespace Vec

/-- Componentwise addition, as `qglviewer::Vec::operator+`. -/
def add (a b : Vec) : Vec := ⟨a.x + b.x, a.y + b.y, a.z + b.z⟩

/-- Componentwise subtraction, as `qglviewer::Vec::operator-`. -/
def sub (a b : Vec) : Vec := ⟨a.x - b.x, a.y - b.y, a.z - b.z⟩

/-- Scalar multiplication, as `double * qglviewer::Vec`. -/
def smul (t : ℝ) (a : Vec) : Vec := ⟨t * a.x, t * a.y, t * a.z⟩

instance : Add Vec := ⟨add⟩

instance : Sub Vec := ⟨sub⟩

instance : SMul ℝ Vec := ⟨smul⟩

/-- Dot product, as `qglviewer::Vec::operator*` on two vectors. -/
def dot (a b : Vec) : ℝ := a.x * b.x + a.y * b.y + a.z * b.z

/-- Cross product, as `qglviewer::Vec::operator^`. -/
def cross (a b : Vec) : Vec :=
  ⟨a.y * b.z - a.z * b.y, a.z * b.x - a.x * b.z, a.x * b.y - a.y * b.x⟩

/-- Euclidean norm, as `qglviewer::Vec::norm()`. -/
def norm (a : Vec) : ℝ := Real.sqrt (a.x ^ 2 + a.y ^ 2 + a.z ^ 2)

/-- Normalised vector, as `qglviewer::Vec::unit()`: the vector divided by its
norm.  For the zero vector the C++ divides `0/0` (IEEE NaN); in the real-number
idealisation `0 / 0 = 0`, so `unit 0 = 0`. -/
def unit (a : Vec) : Vec := ⟨a.x / norm a, a.y / norm a, a.z / norm a⟩

/-- Division of a vector by a scalar, as `qglviewer::Vec::operator/`. -/
def dvd (a : Vec) (t : ℝ) : Vec := ⟨a.x / t, a.y / t, a.z / t⟩

@[simp] theorem add_def (a b : Vec) :
    a + b = ⟨a.x + b.x, a.y + b.y, a.z + b.z⟩ := rfl

@[simp] theorem sub_def (a b : Vec) :
    a - b = ⟨a.x - b.x, a.y - b.y, a.z - b.z⟩ := rfl

@[simp] theorem smul_def (t : ℝ) (a : Vec) :
    t • a = ⟨t * a.x, t * a.y, t * a.z⟩ := rfl

theorem ext_iff {a b : Vec} : a = b ↔ a.x = b.x ∧ a.y = b.y ∧ a.z = b.z := by
  cases a; cases b; simp [Vec.mk.injEq]

end Vec

/-- `MyViewer::degToRad`. -/
def degToRad (deg : ℝ) : ℝ := deg * π / 180

/-- `MyViewer::angleOfVectors`: `acos(v1 * v2 / (v1.norm() * v2.norm()))`. -/
def angleOfVectors (v1 v2 : Vec) : ℝ :=
  Real.arccos (Vec.dot v1 v2 / (Vec.norm v1 * Vec.norm v2))

/-- `MyViewer::rotateAround` — Rodrigues' rotation formula. -/
def rotateAround (v pivot : Vec) (angle : ℝ) : Vec :=
  Real.cos angle • v + Real.sin angle • Vec.cross pivot v +
    ((1 - Real.cos angle) * Vec.dot pivot v) • pivot

/-- `MyViewer::intersectLines`: closest point on line `(ap, ad)` to line
`(bp, bd)`; returns `ap` when the denominator is below `1e-7`. -/
def intersectLines (ap ad bp bd : Vec) : Vec :=
  let a := Vec.dot ad ad
  let b := Vec.dot ad bd
  let c := Vec.dot bd bd
  let d := Vec.dot ad (ap - bp)
  let e := Vec.dot bd (ap - bp)
  if a * c - b * b < 1e-7 then ap
  else ap + ((b * e - c * d) / (a * c - b * b)) • ad

/-- Origin tag of a support point (`MyViewer::locationType`). -/
inductive LocationType where
  | COMMON : LocationType
  | MODEL : LocationType
  | PLATE : LocationType
deriving DecidableEq

export LocationType (COMMON MODEL PLATE)

/-- `MyViewer::SupportPoint`.  The `src/MyViewer.h` header in the repository is
stale (it lacks the `normal` member that `MyViewer.cpp` reads and the
three-argument constructor it calls); the field is modelled from the spec:
"normal: unit vector (defined for MODEL points; for COMMON/PLATE unused,
conventionally +Z or zero)".  We take the two-argument construction
(`mkSP2` below) to leave the normal zero; no routing or meshing decision
ever reads the normal of a COMMON or PLATE point. -/
structure SupportPoint where
  location : Vec
  type : LocationType
  normal : Vec

/-- Two-argument `SupportPoint` construction (normal left at zero). -/
def mkSP2 (loc : Vec) (t : LocationType) : SupportPoint := ⟨loc, t, ⟨0, 0, 0⟩⟩

/-- `MyViewer::TreePoint`: a directed support edge (upper, lower). -/
structure TreePoint where
  point : SupportPoint
  nextPoint : SupportPoint

/-- The strict comparator of `MyViewer::sortPointsToSupport`:
`(a.z == b.z) ? a.x+a.y > b.x+b.y : a.z > b.z`. -/
def spComp (a b : SupportPoint) : Prop :=
  if a.location.z = b.location.z then
    a.location.x + a.location.y > b.location.x + b.location.y
  else a.location.z > b.location.z

/-- The non-strict sorting relation induced by `spComp`: `a` may be placed
before `b` exactly when `b` need not come strictly first. -/
def spLE (a b : SupportPoint) : Prop := ¬ spComp b a

theorem not_spComp_iff (a b : SupportPoint) :
    ¬ spComp a b ↔ a.location.z < b.location.z ∨
      (a.location.z = b.location.z ∧
        a.location.x + a.location.y ≤ b.location.x + b.location.y) := by
  unfold spComp
  by_cases h : a.location.z = b.location.z
  · rw [if_pos h]
    constructor
    · intro hn
      exact Or.inr ⟨h, not_lt.mp hn⟩
    · rintro (h1 | ⟨_, h2⟩)
      · exact absurd h (ne_of_lt h1)
      · exact not_lt.mpr h2
  · rw [if_neg h]
    constructor
    · intro hn
      exact Or.inl (lt_of_le_of_ne (not_lt.mp hn) h)
    · rintro (h1 | ⟨h1, _⟩)
      · exact not_lt.mpr (le_of_lt h1)
      · exact absurd h1 h

theorem spLE_iff (a b : SupportPoint) :
    spLE a b ↔ b.location.z < a.location.z ∨
      (b.location.z = a.location.z ∧
        b.location.x + b.location.y ≤ a.location.x + a.location.y) :=
  not_spComp_iff b a

instance : DecidableRel spLE := fun _ _ => Classical.propDecidable _

instance : IsTotal SupportPoint spLE := by
  constructor
  intro a b
  rcases lt_trichotomy a.location.z b.location.z with h | h | h
  · exact Or.inr ((spLE_iff b a).mpr (Or.inl h))
  · rcases le_total (a.location.x + a.location.y) (b.location.x + b.location.y)
      with hs | hs
    · exact Or.inr ((spLE_iff b a).mpr (Or.inr ⟨h, hs⟩))
    · exact Or.inl ((spLE_iff a b).mpr (Or.inr ⟨h.symm, hs⟩))
  · exact Or.inl ((spLE_iff a b).mpr (Or.inl h))

instance : IsTrans SupportPoint spLE := by
  constructor
  intro a b c hab hbc
  rw [spLE_iff] at hab hbc ⊢
  rcases hab with h1 | h1 <;> rcases hbc with h2 | h2
  · exact Or.inl (by linarith)
  · exact Or.inl (by rw [h2.1]; exact h1)
  · exact Or.inl (h1.1 ▸ h2)
  · exact Or.inr ⟨h2.1.trans h1.1, le_trans h2.2 h1.2⟩

/-- `MyViewer::sortPointsToSupport`: sort by descending `z`, ties broken by
descending `x + y` (the C++ uses `std::sort` with the strict comparator
`spComp`; a stable sort with the induced non-strict relation realises one of
its permitted outcomes, and is what the small-range insertion sort of
libstdc++ produces). -/
def sortPointsToSupport (l : List SupportPoint) : List SupportPoint :=
  List.insertionSort spLE l

/-- `std::unique` over the support-point queue: removes the *adjacent*
duplicates, where `SupportPoint::operator==` compares locations only. -/
def uniqueAdj : List SupportPoint → List SupportPoint
  | [] => []
  | [a] => [a]
  | a :: b :: rest =>
      if a.location = b.location then uniqueAdj (a :: rest)
      else a :: uniqueAdj (b :: rest)
termination_by l => l.length

/-- A mesh face as the support code consumes it: three vertex positions (in
the iteration order of `f.vertices()`) and the face normal provided by the
mesh library. -/
structure MeshFace where
  a : Vec
  b : Vec
  c : Vec
  normal : Vec

/-- A mesh edge flagged for support: its two endpoints and the normals of its
two half-edges (`mesh.normal(e.h0())`, `mesh.normal(e.h1())`). -/
structure MeshEdge where
  v0 : Vec
  v1 : Vec
  n0 : Vec
  n1 : Vec

/-- The face rule of `MyViewer::getElementsThatNeedSupport`: a face is
flagged iff `angleOfVectors(normal, +Z) - degToRad(90) >= angleLimit`. -/
def getFacesToSupport (faces : List MeshFace) (angleLimit : ℝ) : List MeshFace :=
  faces.filter fun f =>
    decide (angleOfVectors f.normal ⟨0, 0, 1⟩ - degToRad 90 ≥ angleLimit)

/-- `MyViewer::generateEdgePoints`: `density` points
`B + i * ((A - B) / (density - 1))` for `i = 0, …, density - 1`. -/
def generateEdgePoints (A B : Vec) (density : ℕ) (normal : Vec) :
    List SupportPoint :=
  (List.range density).map fun (i : ℕ) =>
    ⟨B + (i : ℝ) • Vec.dvd (A - B) ((density : ℝ) - 1), MODEL, normal⟩

/-- `MyViewer::generateFacePoints`: with `v1 = A - B`, `v2 = C - B`, emit for
`i = gridDensity, …, 2` the row `generateEdgePoints (B + v1*δ) (B + v2*δ) i`
with `δ = (i-1)/(gridDensity-1)`, then the apex `B`. -/
def generateFacePoints (f : MeshFace) (gridDensity : ℕ) : List SupportPoint :=
  let v1 := f.a - f.b
  let v2 := f.c - f.b
  (((List.range (gridDensity - 1)).map fun k =>
      let i := gridDensity - k
      let delta := ((i : ℝ) - 1) / ((gridDensity : ℝ) - 1)
      generateEdgePoints (f.b + delta • v1) (f.b + delta • v2) i f.normal).flatten)
    ++ [⟨f.b, MODEL, f.normal⟩]

/-- `MyViewer::calculatePointsToSupport`: vertex points, edge points (with the
normalised sum of the two half-edge normals), face points; then sort and
remove adjacent duplicates (`std::unique`). -/
def calculatePointsToSupport (vertices : List (Vec × Vec))
    (edges : List MeshEdge) (faces : List MeshFace) (gridDensity : ℕ) :
    List SupportPoint :=
  let vpts := vertices.map fun v => SupportPoint.mk v.1 MODEL v.2
  let epts := (edges.map fun e =>
    generateEdgePoints e.v0 e.v1 gridDensity (Vec.unit (e.n0 + e.n1))).flatten
  let fpts := (faces.map fun f => generateFacePoints f gridDensity).flatten
  uniqueAdj (sortPointsToSupport (vpts ++ epts ++ fpts))

theorem degToRad_90 : degToRad 90 = π / 2 := by
  unfold degToRad; ring

theorem uniqueAdj_head? (l : List SupportPoint) :
    (uniqueAdj l).head? = l.head? := by
  induction l using uniqueAdj.induct with
  | case1 => simp [uniqueAdj]
  | case2 a => simp [uniqueAdj]
  | case3 a b rest h ih => rw [uniqueAdj, if_pos h, ih]; simp
  | case4 a b rest h ih => rw [uniqueAdj, if_neg h]; simp

theorem uniqueAdj_chain' (l : List SupportPoint) :
    List.Chain' (fun p q : SupportPoint => p.location ≠ q.location)
      (uniqueAdj l) := by
  induction l using uniqueAdj.induct with
  | case1 => simp [uniqueAdj]
  | case2 a => simp [uniqueAdj]
  | case3 a b rest h ih => rw [uniqueAdj, if_pos h]; exact ih
  | case4 a b rest h ih =>
      rw [uniqueAdj, if_neg h]
      rcases e : uniqueAdj (b :: rest) with _ | ⟨hd, tl⟩
      · simp
      · have hh : hd = b := by
          have hb := uniqueAdj_head? (b :: rest)
          rw [e] at hb
          have hbb : b = hd := by simpa using hb.symm
          exact hbb.symm
        rw [List.chain'_cons]
        exact ⟨hh ▸ h, e ▸ ih⟩

/-- Formalisation of claim C4 as stated: the work queue produced by
`calculatePointsToSupport` contains no two entries (at any two distinct
indices) with componentwise-equal locations, i.e. the list of locations has
no duplicates. -/
def claimC4 (vertices : List (Vec × Vec)) (edges : List MeshEdge)
    (faces : List MeshFace) (gridDensity : ℕ) : Prop :=
  ((calculatePointsToSupport vertices edges faces gridDensity).map
    SupportPoint.location).Nodup

/-- First counterexample face for C4: the downward-facing horizontal triangle
`A=(2,2,1), B=(1,0,1), C=(0,1,1)`. -/
def fc1 : MeshFace := ⟨⟨2, 2, 1⟩, ⟨1, 0, 1⟩, ⟨0, 1, 1⟩, ⟨0, 0, -1⟩⟩

/-- Second counterexample face for C4, sharing the edge `B C` with `fc1`. -/
def fc2 : MeshFace := ⟨⟨0, 1, 1⟩, ⟨1, 0, 1⟩, ⟨-1, -1, 1⟩, ⟨0, 0, -1⟩⟩

theorem calculatePointsToSupport_fc12 :
    calculatePointsToSupport [] [] [fc1, fc2] 2 =
      [⟨⟨2, 2, 1⟩, MODEL, ⟨0, 0, -1⟩⟩,
       ⟨⟨0, 1, 1⟩, MODEL, ⟨0, 0, -1⟩⟩, ⟨⟨1, 0, 1⟩, MODEL, ⟨0, 0, -1⟩⟩,
       ⟨⟨0, 1, 1⟩, MODEL, ⟨0, 0, -1⟩⟩, ⟨⟨1, 0, 1⟩, MODEL, ⟨0, 0, -1⟩⟩,
       ⟨⟨-1, -1, 1⟩, MODEL, ⟨0, 0, -1⟩⟩] := by
  norm_num [calculatePointsToSupport, generateFacePoints, generateEdgePoints,
    fc1, fc2, List.range_succ, Vec.dvd, sortPointsToSupport,
    List.insertionSort, List.orderedInsert, spLE, spComp, uniqueAdj]

/-- C4, counterexample: two flagged horizontal faces sharing an edge produce,
at `gridDensity = 2`, the queue `[A, C, B, C, B, D]` — the shared-edge
samples `C = (0,1,1)` and `B = (1,0,1)` both appear twice, because the sort
comparator (descending `z`, then descending `x + y`) cannot separate `C`
from `B` (equal `z`, equal `x + y`), so the duplicates are not adjacent and
`std::unique` removes neither. -/
theorem c4_counterexample : ¬ claimC4 [] [] [fc1, fc2] 2 := by
  unfold claimC4
  rw [calculatePointsToSupport_fc12]
  intro h
  simp only [List.map_cons, List.map_nil] at h
  norm_num [List.nodup_cons, Vec.mk.injEq] at h

/-- C4 (amended): after the sort-then-deduplicate post-processing, no two
*adjacent* entries of the work queue have componentwise-equal locations (the
comparator orders by descending `z` with descending `x + y` as the only
tie-break, so duplicates need not be adjacent and only adjacent ones are
removed by `std::unique`). -/
theorem c4_amended (vertices : List (Vec × Vec)) (edges : List MeshEdge)
    (faces : List MeshFace) (gridDensity : ℕ) (i : ℕ)
    (h : i + 1 < (calculatePointsToSupport vertices edges faces
      gridDensity).length) :
    ((calculatePointsToSupport vertices edges faces gridDensity).get
        ⟨i, by omega⟩).location ≠
      ((calculatePointsToSupport vertices edges faces gridDensity).get
        ⟨i + 1, h⟩).location := by
  have hc : List.Chain' (fun p q : SupportPoint => p.location ≠ q.location)
      (calculatePointsToSupport vertices edges faces gridDensity) :=
    uniqueAdj_chain' _
  exact List.chain'_iff_get.mp hc i (by omega)

/-- Witness for `c4_amended` at a concrete input: a single flagged face at
`gridDensity = 2` yields a three-point queue whose first two entries differ. -/
theorem c4_amended_witness :
    0 + 1 < (calculatePointsToSupport [] [] [fc1] 2).length ∧
      ((calculatePointsToSupport [] [] [fc1] 2).get
          ⟨0, by norm_num [calculatePointsToSupport, generateFacePoints,
            generateEdgePoints, fc1, List.range_succ, Vec.dvd,
            sortPointsToSupport, List.insertionSort, List.orderedInsert,
            spLE, spComp, uniqueAdj]⟩).location ≠
        ((calculatePointsToSupport [] [] [fc1] 2).get
          ⟨0 + 1, by norm_num [calculatePointsToSupport, generateFacePoints,
            generateEdgePoints, fc1, List.range_succ, Vec.dvd,
            sortPointsToSupport, List.insertionSort, List.orderedInsert,
            spLE, spComp, uniqueAdj]⟩).location :=
  ⟨by norm_num [calculatePointsToSupport, generateFacePoints,
      generateEdgePoints, fc1, List.range_succ, Vec.dvd, sortPointsToSupport,
      List.insertionSort, List.orderedInsert, spLE, spComp, uniqueAdj],
   c4_amended [] [] [fc1] 2 0 (by norm_num [calculatePointsToSupport,
      generateFacePoints, generateEdgePoints, fc1, List.range_succ, Vec.dvd,
      sortPointsToSupport, List.insertionSort, List.orderedInsert, spLE,
      spComp, uniqueAdj])⟩

/-- C5: a face is placed in `FacesToSupport` iff the angle between its face
normal and `+Z`, minus `π/2`, is at least `angleLimit`. -/
theorem c5_face_flag_iff (faces : List MeshFace) (angleLimit : ℝ)
    (f : MeshFace) :
    f ∈ getFacesToSupport faces angleLimit ↔
      f ∈ faces ∧ angleOfVectors f.normal ⟨0, 0, 1⟩ - π / 2 ≥ angleLimit := by
  unfold getFacesToSupport
  rw [List.mem_filter, decide_eq_true_eq, degToRad_90]

open scoped Classical

/-- `MyViewer::projectToTriangle`: closed-form closest point of a triangle,
seven-region split (Schneider–Eberly). -/
def projectToTriangle (p : Vec) (f : MeshFace) : Vec :=
  let q1 := f.a
  let q2 := f.b
  let q3 := f.c
  let B := q1
  let E0 := q2 - q1
  let E1 := q3 - q1
  let D := B - p
  let a := Vec.dot E0 E0
  let b := Vec.dot E0 E1
  let c := Vec.dot E1 E1
  let d := Vec.dot E0 D
  let e := Vec.dot E1 D
  let det := a * c - b * b
  let s0 := b * e - c * d
  let t0 := b * d - a * e
  let st : ℝ × ℝ :=
    if s0 + t0 ≤ det then
      if s0 < 0 then
        if t0 < 0 then
          if e < 0 then (0, if -e ≥ c then 1 else -e / c)
          else if d < 0 then (if -d ≥ a then 1 else -d / a, 0)
          else (0, 0)
        else (0, if e ≥ 0 then 0 else if -e ≥ c then 1 else -e / c)
      else if t0 < 0 then
        (if d ≥ 0 then 0 else if -d ≥ a then 1 else -d / a, 0)
      else (s0 * (1 / det), t0 * (1 / det))
    else
      if s0 < 0 then
        let tmp0 := b + d
        let tmp1 := c + e
        if tmp1 > tmp0 then
          let numer := tmp1 - tmp0
          let denom := a - 2 * b + c
          let s1 : ℝ := if numer ≥ denom then 1 else numer / denom
          (s1, 1 - s1)
        else (0, if tmp1 ≤ 0 then 1 else if e ≥ 0 then 0 else -e / c)
      else if t0 < 0 then
        let tmp0 := b + e
        let tmp1 := a + d
        if tmp1 > tmp0 then
          let numer := tmp1 - tmp0
          let denom := c - 2 * b + a
          let t1 : ℝ := if numer ≥ denom then 1 else numer / denom
          (1 - t1, t1)
        else (if tmp1 ≤ 0 then 1 else if d ≥ 0 then 0 else -d / a, 0)
      else
        let numer := c + e - b - d
        let s1 : ℝ :=
          if numer ≤ 0 then 0
          else
            let denom := a - 2 * b + c
            if numer ≥ denom then 1 else numer / denom
        (s1, 1 - s1)
  B + st.1 • E0 + st.2 • E1

/-- The loop body of `MyViewer::getClosestPointOnModel`: keep the triangle
projection when it lies strictly below `p`, its connector is steeper than
`90° - angleLimit`, and it beats the best so far. -/
def modelScanStep (angleLimit : ℝ) (p : SupportPoint)
    (acc : Option (Vec × Vec)) (f : MeshFace) : Option (Vec × Vec) :=
  let projection := projectToTriangle p.location f
  if projection.z < p.location.z ∧
      angleOfVectors (projection - p.location)
        (⟨projection.x, projection.y, p.location.z⟩ - p.location) >
        degToRad 90 - angleLimit ∧
      (match acc with
       | none => True
       | some (closest, _) =>
           Vec.norm (projection - p.location) <
             Vec.norm (closest - p.location)) then
    some (projection, f.normal)
  else acc

/-- `MyViewer::getClosestPointOnModel`: over all faces, the closest triangle
projection that lies strictly below `p` and outside the shallow cone
(`angle > 90° - angleLimit`); `p` itself when no projection qualifies. -/
def getClosestPointOnModel (faces : List MeshFace) (angleLimit : ℝ)
    (p : SupportPoint) : SupportPoint :=
  match faces.foldl (modelScanStep angleLimit p) none with
  | some (closest, normal) => ⟨closest, MODEL, normal⟩
  | none => p

/-- The loop body of `MyViewer::getClosestPointFromPoints`: replace the
current candidate by `cand` exactly when `cand` is strictly closer to `p`
*and* its connector stays below `90° - angleLimit`. -/
def mergeScanStep (angleLimit : ℝ) (p closest cand : SupportPoint) :
    SupportPoint :=
  if Vec.norm (cand.location - p.location) <
        Vec.norm (closest.location - p.location) ∧
      angleOfVectors (cand.location - p.location)
        (⟨cand.location.x, cand.location.y, p.location.z⟩ -
          p.location) < degToRad 90 - angleLimit then cand
  else closest

/-- `MyViewer::getClosestPointFromPoints`: greedy scan of the queue from
index 1, starting from `pts[1]`; returns `p` when the final candidate's
connector angle exceeds `90° - angleLimit`. -/
def getClosestPointFromPoints (pts : List SupportPoint) (angleLimit : ℝ)
    (p : SupportPoint) : SupportPoint :=
  match pts with
  | [] => p
  | [_] => p
  | _ :: q :: rest =>
      let closest := (q :: rest).foldl (mergeScanStep angleLimit p) q
      if angleOfVectors (closest.location - p.location)
          (⟨closest.location.x, closest.location.y, p.location.z⟩ -
            p.location) > degToRad 90 - angleLimit then p
      else closest

/-- `MyViewer::getCommonSupportPoint`. -/
def getCommonSupportPoint (p1 p2 : Vec) (angleLimit : ℝ) : Vec :=
  let normal := Vec.unit (Vec.cross (Vec.unit (p2 - p1)) ⟨0, 0, 1⟩)
  let fromp1 := rotateAround (⟨p1.x, p1.y, 0⟩ - p1) normal angleLimit
  let fromp2 := rotateAround (⟨p2.x, p2.y, 0⟩ - p2) normal (-angleLimit)
  intersectLines p1 fromp1 p2 fromp2

/-- `pointsToSupport.erase(std::find(...))`: remove the first queue entry
whose location equals `loc` (`SupportPoint::operator==` compares locations). -/
def eraseFirstLoc : List SupportPoint → Vec → List SupportPoint
  | [], _ => []
  | a :: rest, loc =>
      if a.location = loc then rest else a :: eraseFirstLoc rest loc

/-- The mutable state of the routing loop in
`MyViewer::calculateSupportTreePoints`. -/
structure RouterState where
  queue : List SupportPoint
  tree : List TreePoint

/-- The candidate-selection ladder of `MyViewer::calculateSupportTreePoints`
(lines 1091-1101): choose among the nearest queue point, the nearest model
projection, and the plate projection, excluding zero-distance candidates. -/
def routerClosest (distanceFromClosest distanceFromModel distanceFromBase : ℝ)
    (cfpLoc cmLoc base : Vec) : Vec :=
  if distanceFromClosest > 0 ∧ distanceFromModel > 0 then
    if distanceFromClosest < distanceFromBase ∧
        distanceFromClosest ≤ distanceFromModel then cfpLoc
    else if distanceFromModel < distanceFromClosest ∧
        distanceFromModel < distanceFromBase then cmLoc
    else base
  else if distanceFromClosest = 0 ∧ distanceFromModel > 0 then
    if distanceFromModel < distanceFromBase then cmLoc else base
  else if distanceFromModel = 0 ∧ distanceFromClosest > 0 then
    if distanceFromClosest < distanceFromBase then cfpLoc else base
  else base

/-- One iteration of the `while` loop of
`MyViewer::calculateSupportTreePoints`: process the front point (skipping it
when it has reached the plate level), then `pop_front` and re-sort. -/
def routerStep (angleLimit : ℝ) (faces : List MeshFace) (lowestZ : ℝ)
    (st : RouterState) : RouterState :=
  match st.queue with
  | [] => st
  | p :: _ =>
      let st2 : RouterState :=
        if p.location.z > lowestZ then
          let closestFromPoints :=
            getClosestPointFromPoints st.queue angleLimit p
          let closestOnModel := getClosestPointOnModel faces angleLimit p
          let closestOnBase : Vec := ⟨p.location.x, p.location.y, lowestZ⟩
          let distanceFromClosest :=
            Vec.norm (p.location - closestFromPoints.location)
          let distanceFromModel :=
            Vec.norm (p.location - closestOnModel.location)
          let distanceFromBase := Vec.norm (p.location - closestOnBase)
          let closest : Vec := routerClosest distanceFromClosest
            distanceFromModel distanceFromBase closestFromPoints.location
            closestOnModel.location closestOnBase
          if p.type = MODEL then
            { queue := st.queue ++
                [mkSP2 (p.location + Vec.unit p.normal) COMMON],
              tree := st.tree ++
                [if p.location.z - lowestZ < 1 then
                   TreePoint.mk p (mkSP2 closestOnBase COMMON)
                 else
                   TreePoint.mk p
                     (mkSP2 (p.location + Vec.unit p.normal) COMMON)] }
          else if st.queue.length > 1 ∧ closest = closestFromPoints.location ∧
              closest ≠ p.location then
            let common := getCommonSupportPoint p.location
              closestFromPoints.location angleLimit
            { queue := eraseFirstLoc st.queue closestFromPoints.location ++
                [mkSP2 common COMMON],
              tree := st.tree ++
                [TreePoint.mk p (mkSP2 common COMMON),
                 TreePoint.mk closestFromPoints (mkSP2 common COMMON)] }
          else if closest = closestOnModel.location ∧
              closest ≠ p.location then
            { queue := st.queue,
              tree := st.tree ++ [TreePoint.mk p closestOnModel] }
          else
            { queue := st.queue,
              tree := st.tree ++ [TreePoint.mk p (mkSP2 closest PLATE)] }
        else st
      { queue := sortPointsToSupport st2.queue.tail, tree := st2.tree }

/-- The routing loop, with explicit fuel: `none` when the fuel runs out
before the queue empties, otherwise the accumulated tree edges. -/
def runRouter (angleLimit : ℝ) (faces : List MeshFace) (lowestZ : ℝ) :
    ℕ → RouterState → Option (List TreePoint)
  | 0, st => if st.queue = [] then some st.tree else none
  | fuel + 1, st =>
      if st.queue = [] then some st.tree
      else runRouter angleLimit faces lowestZ fuel
        (routerStep angleLimit faces lowestZ st)

/-- `MyViewer::calculateSupportTreePoints`, taking the sorted output of
`calculatePointsToSupport` as the initial queue; `lowestZ` is the `z` of the
last (lowest) queue entry. -/
def calculateSupportTreePoints (fuel : ℕ) (angleLimit : ℝ)
    (faces : List MeshFace) (initQueue : List SupportPoint) :
    Option (List TreePoint) :=
  let lowestZ := ((initQueue.getLast?).map fun sp => sp.location.z).getD 0
  runRouter angleLimit faces lowestZ fuel ⟨initQueue, []⟩

/-- Formalisation of claim C1 as stated: when the router pops a MODEL point
`p` with `lowestZ < p.z` and `p.z - lowestZ < 1`, it adds exactly one tree
edge from `p` to the plate projection tagged PLATE, inserts no new COMMON
point into the queue (every remaining queue entry was already queued), and
the queue shrinks by one element. -/
def claimC1 : Prop :=
  ∀ (angleLimit : ℝ) (faces : List MeshFace) (lowestZ : ℝ)
    (p : SupportPoint) (rest : List SupportPoint) (tree : List TreePoint),
    p.type = MODEL → lowestZ < p.location.z → p.location.z - lowestZ < 1 →
    (∃ nrm, (routerStep angleLimit faces lowestZ ⟨p :: rest, tree⟩).tree =
        tree ++ [TreePoint.mk p
          ⟨⟨p.location.x, p.location.y, lowestZ⟩, PLATE, nrm⟩]) ∧
    (∀ sp ∈ (routerStep angleLimit faces lowestZ ⟨p :: rest, tree⟩).queue,
        sp ∈ rest) ∧
    (routerStep angleLimit faces lowestZ ⟨p :: rest, tree⟩).queue.length =
      rest.length

/-- The MODEL point of the C1/C8 counterexamples: `(0,0,1/2)`, normal
`(0,0,-1)`, half a unit above the plate. -/
def cp1 : SupportPoint := ⟨⟨0, 0, 1/2⟩, MODEL, ⟨0, 0, -1⟩⟩

/-- A queue mate sitting on the plate, fixing `lowestZ = 0`. -/
def cq1 : SupportPoint := ⟨⟨5, 5, 0⟩, MODEL, ⟨0, 0, 1⟩⟩

theorem routerStep_cp1 :
    routerStep (π/3) [] 0 ⟨[cp1, cq1], []⟩ =
      ⟨[cq1, ⟨⟨0, 0, -(1/2)⟩, COMMON, ⟨0, 0, 0⟩⟩],
       [TreePoint.mk cp1 ⟨⟨0, 0, 0⟩, COMMON, ⟨0, 0, 0⟩⟩]⟩ := by
  norm_num [routerStep, cp1, cq1, mkSP2, Vec.unit, Vec.norm,
    sortPointsToSupport, List.insertionSort, List.orderedInsert, spLE, spComp,
    Real.sqrt_one]

/-- C1, counterexample: at `p = (0,0,1/2)` (MODEL, normal `(0,0,-1)`) over a
plate at `z = 0`, the router tags the plate projection COMMON (not PLATE),
pushes the lifted point `p + unit(normal) = (0,0,-1/2)` as a new COMMON
queue entry, and leaves the queue size unchanged at 2. -/
theorem c1_counterexample : ¬ claimC1 := by
  intro h
  obtain ⟨-, -, hlen⟩ := h (π/3) [] 0 cp1 [cq1] [] rfl (by norm_num [cp1])
    (by norm_num [cp1])
  rw [routerStep_cp1] at hlen
  simp at hlen

/-- C1 (amended): for a MODEL point `p` popped with
`lowestZ < p.z < lowestZ + 1`, the router adds exactly one tree edge from
`p` to the plate projection `(p.x, p.y, lowestZ)` whose lower endpoint
carries origin tag COMMON (not PLATE), pushes one *new* COMMON point
`p.location + unit(p.normal)` onto the queue, and the queue size is
unchanged (one popped, one pushed). -/
theorem c1_amended (angleLimit : ℝ) (faces : List MeshFace) (lowestZ : ℝ)
    (p : SupportPoint) (rest : List SupportPoint) (tree : List TreePoint)
    (hm : p.type = MODEL) (hz : lowestZ < p.location.z)
    (hz1 : p.location.z - lowestZ < 1) :
    (routerStep angleLimit faces lowestZ ⟨p :: rest, tree⟩).tree =
      tree ++ [TreePoint.mk p
        (mkSP2 ⟨p.location.x, p.location.y, lowestZ⟩ COMMON)] ∧
    (routerStep angleLimit faces lowestZ ⟨p :: rest, tree⟩).queue.Perm
      (rest ++ [mkSP2 (p.location + Vec.unit p.normal) COMMON]) ∧
    (routerStep angleLimit faces lowestZ ⟨p :: rest, tree⟩).queue.length =
      (p :: rest).length := by
  have hstep : routerStep angleLimit faces lowestZ ⟨p :: rest, tree⟩ =
      ⟨sortPointsToSupport
          (rest ++ [mkSP2 (p.location + Vec.unit p.normal) COMMON]),
        tree ++ [TreePoint.mk p
          (mkSP2 ⟨p.location.x, p.location.y, lowestZ⟩ COMMON)]⟩ := by
    simp only [routerStep]
    rw [if_pos hz, if_pos hm, if_pos hz1]
    simp [List.cons_append]
  rw [hstep]
  refine ⟨rfl, List.perm_insertionSort _ _, ?_⟩
  have := (List.perm_insertionSort spLE
    (rest ++ [mkSP2 (p.location + Vec.unit p.normal) COMMON])).length_eq
  simp only [sortPointsToSupport]
  rw [this]
  simp

/-- Witness for `c1_amended` at the concrete C1 input. -/
theorem c1_amended_witness :
    cp1.type = MODEL ∧ (0:ℝ) < cp1.location.z ∧ cp1.location.z - 0 < 1 ∧
      ((routerStep (π/3) [] 0 ⟨[cp1, cq1], []⟩).tree =
        [] ++ [TreePoint.mk cp1
          (mkSP2 ⟨cp1.location.x, cp1.location.y, 0⟩ COMMON)] ∧
      (routerStep (π/3) [] 0 ⟨[cp1, cq1], []⟩).queue.Perm
        ([cq1] ++ [mkSP2 (cp1.location + Vec.unit cp1.normal) COMMON]) ∧
      (routerStep (π/3) [] 0 ⟨[cp1, cq1], []⟩).queue.length =
        ([cp1, cq1] : List SupportPoint).length) :=
  ⟨rfl, by norm_num [cp1], by norm_num [cp1],
    c1_amended (π/3) [] 0 cp1 [cq1] [] rfl (by norm_num [cp1])
      (by norm_num [cp1])⟩

/-- The normalisation step at the end of `MyViewer::updateVertexNormals`:
`double len = n.length(); if (len != 0.0) n /= len;` — a zero-length
accumulated normal is left unchanged (it is *not* replaced by `+Z`). -/
def finalizeVertexNormal (n : Vec) : Vec :=
  if Vec.norm n ≠ 0 then Vec.dvd n (Vec.norm n) else n

/-- Formalisation of claim C8 as stated: a zero-length vertex normal is
treated as `+Z` by the router, so the micro-lift offset
`p.location + unit(p.normal)` equals `p.location + (0,0,1)`. -/
def claimC8 : Prop :=
  ∀ p : SupportPoint, p.normal = ⟨0, 0, 0⟩ →
    p.location + Vec.unit p.normal = p.location + ⟨0, 0, 1⟩

/-- C8, counterexample: for a MODEL point at the origin with the zero
normal, `unit(normal)` is the zero vector (IEEE NaN in the C++), not
`(0,0,1)`, so the micro-lift offset is `p.location` itself rather than
`p.location + (0,0,1)`. -/
theorem c8_counterexample : ¬ claimC8 := by
  intro h
  have h0 := h (mkSP2 ⟨0, 0, 0⟩ MODEL) rfl
  rw [Vec.ext_iff] at h0
  norm_num [mkSP2, Vec.unit, Vec.norm] at h0

/-- C8 (amended): neither `updateVertexNormals` nor the router substitutes
`+Z` for a zero-length normal.  `updateVertexNormals` skips the
normalisation and stores the zero vector, and for a MODEL point with zero
normal the micro-lift offset `p.location + unit(p.normal)` equals
`p.location` itself (in the real idealisation `unit 0 = 0`; the C++
produces NaN coordinates), so the lifted COMMON point and the tree edge
bottom out at `p.location`. -/
theorem c8_amended (angleLimit : ℝ) (faces : List MeshFace) (lowestZ : ℝ)
    (p : SupportPoint) (rest : List SupportPoint) (tree : List TreePoint)
    (hm : p.type = MODEL) (hn : p.normal = ⟨0, 0, 0⟩)
    (hz : lowestZ < p.location.z) (hz1 : 1 ≤ p.location.z - lowestZ) :
    finalizeVertexNormal p.normal = ⟨0, 0, 0⟩ ∧
    p.location + Vec.unit p.normal = p.location ∧
    (routerStep angleLimit faces lowestZ ⟨p :: rest, tree⟩).tree =
      tree ++ [TreePoint.mk p (mkSP2 p.location COMMON)] := by
  have hunit : Vec.unit p.normal = ⟨0, 0, 0⟩ := by
    rw [hn]
    simp [Vec.unit, Vec.norm]
  have hoff : p.location + Vec.unit p.normal = p.location := by
    rw [hunit, Vec.ext_iff]
    simp
  refine ⟨?_, hoff, ?_⟩
  · rw [hn]
    simp [finalizeVertexNormal, Vec.norm]
  · simp only [routerStep]
    rw [if_pos hz, if_pos hm, if_neg (by linarith), hoff]

/-- Witness for `c8_amended` at a concrete zero-normal point. -/
theorem c8_amended_witness :
    (⟨⟨0, 0, 2⟩, MODEL, ⟨0, 0, 0⟩⟩ : SupportPoint).type = MODEL ∧
    (⟨⟨0, 0, 2⟩, MODEL, ⟨0, 0, 0⟩⟩ : SupportPoint).normal = ⟨0, 0, 0⟩ ∧
    (0:ℝ) < (⟨⟨0, 0, 2⟩, MODEL, ⟨0, 0, 0⟩⟩ : SupportPoint).location.z ∧
    (1:ℝ) ≤ (⟨⟨0, 0, 2⟩, MODEL, ⟨0, 0, 0⟩⟩ : SupportPoint).location.z - 0 ∧
    (finalizeVertexNormal
        (⟨⟨0, 0, 2⟩, MODEL, ⟨0, 0, 0⟩⟩ : SupportPoint).normal = ⟨0, 0, 0⟩ ∧
      (⟨⟨0, 0, 2⟩, MODEL, ⟨0, 0, 0⟩⟩ : SupportPoint).location +
        Vec.unit (⟨⟨0, 0, 2⟩, MODEL, ⟨0, 0, 0⟩⟩ : SupportPoint).normal =
        (⟨⟨0, 0, 2⟩, MODEL, ⟨0, 0, 0⟩⟩ : SupportPoint).location ∧
      (routerStep (π/3) [] 0
          ⟨[⟨⟨0, 0, 2⟩, MODEL, ⟨0, 0, 0⟩⟩], []⟩).tree =
        [] ++ [TreePoint.mk ⟨⟨0, 0, 2⟩, MODEL, ⟨0, 0, 0⟩⟩
          (mkSP2 (⟨⟨0, 0, 2⟩, MODEL, ⟨0, 0, 0⟩⟩ : SupportPoint).location
            COMMON)]) :=
  ⟨rfl, rfl, by norm_num, by norm_num,
    c8_amended (π/3) [] 0 ⟨⟨0, 0, 2⟩, MODEL, ⟨0, 0, 0⟩⟩ [] [] rfl rfl
      (by norm_num) (by norm_num)⟩

/-- The "within the self-support cone" test of the merge-candidate scan: the
connector from `p` to `q` makes an angle smaller than `90° - angleLimit`
with its horizontal projection. -/
def connectorQualifies (p q : SupportPoint) (angleLimit : ℝ) : Prop :=
  angleOfVectors (q.location - p.location)
    (⟨q.location.x, q.location.y, p.location.z⟩ - p.location) <
    degToRad 90 - angleLimit

/-- Formalisation of claim C3 as stated: `getClosestPointFromPoints` returns
the nearest queue point (past the front) whose connector qualifies, and `p`
itself exactly when no queue point qualifies. -/
def claimC3 : Prop :=
  ∀ (pts : List SupportPoint) (angleLimit : ℝ) (p : SupportPoint),
    ((∃ q ∈ pts.drop 1, connectorQualifies p q angleLimit) →
      getClosestPointFromPoints pts angleLimit p ∈ pts.drop 1 ∧
      connectorQualifies p (getClosestPointFromPoints pts angleLimit p)
        angleLimit ∧
      ∀ q ∈ pts.drop 1, connectorQualifies p q angleLimit →
        Vec.norm ((getClosestPointFromPoints pts angleLimit p).location -
            p.location) ≤
          Vec.norm (q.location - p.location)) ∧
    ((∀ q ∈ pts.drop 1, ¬ connectorQualifies p q angleLimit) →
      getClosestPointFromPoints pts angleLimit p = p)

/-- Front point for the C3 counterexample. -/
def cp3 : SupportPoint := ⟨⟨0, 0, 10⟩, MODEL, ⟨0, 0, 1⟩⟩

/-- Nearer, non-qualifying queue point (steep connector, angle ≈ 53°). -/
def cq31 : SupportPoint := ⟨⟨3, 0, 6⟩, MODEL, ⟨0, 0, 1⟩⟩

/-- Farther, qualifying queue point (shallow connector, angle ≈ 37°). -/
def cq32 : SupportPoint := ⟨⟨8, 0, 4⟩, MODEL, ⟨0, 0, 1⟩⟩

theorem sqrt_25 : Real.sqrt 25 = 5 := by
  rw [show (25:ℝ) = 5 ^ 2 by norm_num]
  exact Real.sqrt_sq (by norm_num)

theorem sqrt_9 : Real.sqrt 9 = 3 := by
  rw [show (9:ℝ) = 3 ^ 2 by norm_num]
  exact Real.sqrt_sq (by norm_num)

theorem sqrt_100 : Real.sqrt 100 = 10 := by
  rw [show (100:ℝ) = 10 ^ 2 by norm_num]
  exact Real.sqrt_sq (by norm_num)

theorem arccos_three_fifths_gt : π / 2 - π / 4 < Real.arccos (3 / 5) := by
  have hle : ¬ Real.arccos (3 / 5) ≤ π / 4 := by
    rw [Real.arccos_le_pi_div_four]
    intro hcon
    nlinarith [Real.sq_sqrt (show (0:ℝ) ≤ 2 by norm_num), Real.sqrt_nonneg 2]
  have h := not_le.mp hle
  linarith

theorem arccos_four_fifths_lt : Real.arccos (4 / 5) < π / 2 - π / 4 := by
  have hle : Real.arccos (4 / 5) ≤ π / 4 := by
    rw [Real.arccos_le_pi_div_four]
    nlinarith [Real.sq_sqrt (show (0:ℝ) ≤ 2 by norm_num), Real.sqrt_nonneg 2]
  have hne : Real.arccos (4 / 5) ≠ π / 4 := by
    intro heq
    have hc : Real.cos (Real.arccos (4 / 5)) = 4 / 5 :=
      Real.cos_arccos (by norm_num) (by norm_num)
    rw [heq, Real.cos_pi_div_four] at hc
    nlinarith [Real.sq_sqrt (show (0:ℝ) ≤ 2 by norm_num), Real.sqrt_nonneg 2]
  have h := lt_of_le_of_ne hle hne
  linarith

theorem getClosestPointFromPoints_cex :
    getClosestPointFromPoints [cp3, cq31, cq32] (π/4) cp3 = cp3 := by
  have h1 := arccos_three_fifths_gt
  norm_num [getClosestPointFromPoints, mergeScanStep, List.foldl, cp3, cq31,
    cq32, angleOfVectors, Vec.dot, Vec.norm, degToRad, sqrt_25, sqrt_9,
    sqrt_100]
  linarith [h1, show (90:ℝ) * π / 180 = π / 2 from by ring]

theorem sqrt_64 : Real.sqrt 64 = 8 := by
  rw [show (64:ℝ) = 8 ^ 2 by norm_num]
  exact Real.sqrt_sq (by norm_num)

theorem cq32_qualifies : connectorQualifies cp3 cq32 (π/4) := by
  have h1 := arccos_four_fifths_lt
  unfold connectorQualifies
  norm_num [angleOfVectors, Vec.dot, Vec.norm, cp3, cq32, degToRad, sqrt_100,
    sqrt_64]
  linarith [h1, show (90:ℝ) * π / 180 = π / 2 from by ring]

/-- C3, counterexample: at `p = (0,0,10)` with queue
`[p, (3,0,6), (8,0,4)]` and `angleLimit = π/4`, the point `(8,0,4)`
qualifies (connector angle ≈ 36.9° < 45°), yet the greedy scan returns `p`:
the nearer point `(3,0,6)` fails the angle test (≈ 53.1°) but, being
nearest, is never displaced as the running candidate, and the final angle
check then rejects it. -/
theorem c3_counterexample : ¬ claimC3 := by
  intro h
  obtain ⟨h1, -⟩ := h [cp3, cq31, cq32] (π/4) cp3
  obtain ⟨hmem, -, -⟩ := h1 ⟨cq32, by simp, cq32_qualifies⟩
  rw [getClosestPointFromPoints_cex] at hmem
  norm_num [cp3, cq31, cq32, SupportPoint.mk.injEq, Vec.mk.injEq] at hmem

theorem foldl_mergeScan_mem (angleLimit : ℝ) (p : SupportPoint) :
    ∀ (l : List SupportPoint) (init : SupportPoint),
      l.foldl (mergeScanStep angleLimit p) init = init ∨
      l.foldl (mergeScanStep angleLimit p) init ∈ l := by
  intro l
  induction l with
  | nil => exact fun init => Or.inl rfl
  | cons c t ih =>
      intro init
      simp only [List.foldl]
      rcases ih (mergeScanStep angleLimit p init c) with h | h
      · rw [h]
        unfold mergeScanStep
        split_ifs with hc
        · exact Or.inr (List.mem_cons_self _ _)
        · exact Or.inl rfl
      · exact Or.inr (List.mem_cons_of_mem _ h)

theorem foldl_mergeScan_min (angleLimit : ℝ) (p : SupportPoint) :
    ∀ (l : List SupportPoint) (init : SupportPoint),
      connectorQualifies p init angleLimit →
      (∀ c ∈ l, connectorQualifies p c angleLimit) →
      connectorQualifies p (l.foldl (mergeScanStep angleLimit p) init)
          angleLimit ∧
      Vec.norm ((l.foldl (mergeScanStep angleLimit p) init).location -
            p.location) ≤
        Vec.norm (init.location - p.location) ∧
      ∀ c ∈ l,
        Vec.norm ((l.foldl (mergeScanStep angleLimit p) init).location -
              p.location) ≤
          Vec.norm (c.location - p.location) := by
  intro l
  induction l with
  | nil => exact fun init hq _ => ⟨hq, le_refl _, by simp⟩
  | cons c t ih =>
      intro init hq hall
      have hqc : connectorQualifies p c angleLimit :=
        hall c (List.mem_cons_self _ _)
      have hallt : ∀ x ∈ t, connectorQualifies p x angleLimit :=
        fun x hx => hall x (List.mem_cons_of_mem _ hx)
      simp only [List.foldl]
      by_cases hlt : Vec.norm (c.location - p.location) <
          Vec.norm (init.location - p.location)
      · have hstep : mergeScanStep angleLimit p init c = c := by
          unfold mergeScanStep
          exact if_pos ⟨hlt, hqc⟩
        rw [hstep]
        obtain ⟨ih1, ih2, ih3⟩ := ih c hqc hallt
        refine ⟨ih1, le_trans ih2 (le_of_lt hlt), ?_⟩
        intro x hx
        rcases List.mem_cons.mp hx with hx | hx
        · rw [hx]; exact ih2
        · exact ih3 x hx
      · have hstep : mergeScanStep angleLimit p init c = init := by
          unfold mergeScanStep
          exact if_neg fun hcon => hlt hcon.1
        rw [hstep]
        obtain ⟨ih1, ih2, ih3⟩ := ih init hq hallt
        refine ⟨ih1, ih2, ?_⟩
        intro x hx
        rcases List.mem_cons.mp hx with hx | hx
        · rw [hx]
          exact le_trans ih2 (not_lt.mp hlt)
        · exact ih3 x hx

/-- C3 (amended): the merge candidate is `p` itself, or a queue entry past
the front whose connector angle is at most `90° - angleLimit`; and in the
case where *every* queue entry past the front satisfies the strict angle
condition, it is one of them at minimal distance from `p`.  (The original
nearest-qualifying characterisation fails when a strictly nearer
non-qualifying entry shields a farther qualifying one: the scan then
returns `p` although a qualifying point exists.) -/
theorem c3_amended (pts : List SupportPoint) (angleLimit : ℝ)
    (p : SupportPoint) :
    (getClosestPointFromPoints pts angleLimit p = p ∨
      (getClosestPointFromPoints pts angleLimit p ∈ pts.drop 1 ∧
        angleOfVectors
            ((getClosestPointFromPoints pts angleLimit p).location -
              p.location)
            (⟨(getClosestPointFromPoints pts angleLimit p).location.x,
              (getClosestPointFromPoints pts angleLimit p).location.y,
              p.location.z⟩ - p.location) ≤ degToRad 90 - angleLimit)) ∧
    (pts.drop 1 ≠ [] →
      (∀ q ∈ pts.drop 1, connectorQualifies p q angleLimit) →
      getClosestPointFromPoints pts angleLimit p ∈ pts.drop 1 ∧
      ∀ q ∈ pts.drop 1,
        Vec.norm ((getClosestPointFromPoints pts angleLimit p).location -
            p.location) ≤
          Vec.norm (q.location - p.location)) := by
  match pts with
  | [] => exact ⟨Or.inl rfl, fun hne _ => absurd rfl hne⟩
  | [x] => exact ⟨Or.inl rfl, fun hne _ => absurd rfl hne⟩
  | x :: q :: rest =>
      have hdrop : (x :: q :: rest).drop 1 = q :: rest := rfl
      constructor
      · by_cases hang : angleOfVectors
            (((q :: rest).foldl (mergeScanStep angleLimit p) q).location -
              p.location)
            (⟨((q :: rest).foldl (mergeScanStep angleLimit p) q).location.x,
              ((q :: rest).foldl (mergeScanStep angleLimit p) q).location.y,
              p.location.z⟩ - p.location) > degToRad 90 - angleLimit
        · left
          simp only [getClosestPointFromPoints]
          rw [if_pos hang]
        · right
          have hres : getClosestPointFromPoints (x :: q :: rest) angleLimit p
              = (q :: rest).foldl (mergeScanStep angleLimit p) q := by
            simp only [getClosestPointFromPoints]
            rw [if_neg hang]
          rw [hres, hdrop]
          refine ⟨?_, not_lt.mp hang⟩
          rcases foldl_mergeScan_mem angleLimit p (q :: rest) q with h | h
          · rw [h]; exact List.mem_cons_self _ _
          · exact h
      · intro _ hall
        rw [hdrop] at hall
        have hq : connectorQualifies p q angleLimit :=
          hall q (List.mem_cons_self _ _)
        obtain ⟨hq1, -, hq3⟩ :=
          foldl_mergeScan_min angleLimit p (q :: rest) q hq hall
        have hres : getClosestPointFromPoints (x :: q :: rest) angleLimit p
            = (q :: rest).foldl (mergeScanStep angleLimit p) q := by
          simp only [getClosestPointFromPoints]
          rw [if_neg (not_lt.mpr (le_of_lt hq1))]
        rw [hres, hdrop]
        refine ⟨?_, hq3⟩
        rcases foldl_mergeScan_mem angleLimit p (q :: rest) q with h | h
        · rw [h]; exact List.mem_cons_self _ _
        · exact h

/-- Witness for `c3_amended`: a two-point queue whose single tail entry
qualifies; the scan must return that entry as the minimiser. -/
theorem c3_amended_witness :
    (([cp3, ⟨⟨1, 0, 10⟩, MODEL, ⟨0, 0, 1⟩⟩] :
        List SupportPoint).drop 1 ≠ [] ∧
      (∀ q ∈ ([cp3, ⟨⟨1, 0, 10⟩, MODEL, ⟨0, 0, 1⟩⟩] :
          List SupportPoint).drop 1, connectorQualifies cp3 q (π/4))) ∧
    (getClosestPointFromPoints [cp3, ⟨⟨1, 0, 10⟩, MODEL, ⟨0, 0, 1⟩⟩] (π/4)
        cp3 ∈ ([cp3, ⟨⟨1, 0, 10⟩, MODEL, ⟨0, 0, 1⟩⟩] :
          List SupportPoint).drop 1 ∧
      ∀ q ∈ ([cp3, ⟨⟨1, 0, 10⟩, MODEL, ⟨0, 0, 1⟩⟩] :
          List SupportPoint).drop 1,
        Vec.norm ((getClosestPointFromPoints
            [cp3, ⟨⟨1, 0, 10⟩, MODEL, ⟨0, 0, 1⟩⟩] (π/4) cp3).location -
            cp3.location) ≤
          Vec.norm (q.location - cp3.location)) := by
  have hqual : ∀ q ∈ ([cp3, ⟨⟨1, 0, 10⟩, MODEL, ⟨0, 0, 1⟩⟩] :
      List SupportPoint).drop 1, connectorQualifies cp3 q (π/4) := by
    intro q hqm
    simp only [List.drop, List.mem_singleton] at hqm
    rw [hqm]
    unfold connectorQualifies
    norm_num [angleOfVectors, Vec.dot, Vec.norm, cp3, degToRad,
      Real.sqrt_one, Real.arccos_one]
    nlinarith [Real.pi_pos]
  exact ⟨⟨by simp, hqual⟩,
    (c3_amended [cp3, ⟨⟨1, 0, 10⟩, MODEL, ⟨0, 0, 1⟩⟩] (π/4) cp3).2
      (by simp) hqual⟩

/-- The cone-line direction produced inside `getCommonSupportPoint`: the
vertical drop `(0,0,-z)` rotated by `±angleLimit` around the horizontal unit
axis `(ub, -ua, 0)`. -/
def coneDir (z ua ub α : ℝ) : Vec :=
  ⟨Real.sin α * (ua * z), Real.sin α * (ub * z), Real.cos α * (-z)⟩

theorem rotateAround_vertical (z ua ub α : ℝ) :
    rotateAround ⟨0, 0, -z⟩ ⟨ub, -ua, 0⟩ α = coneDir z ua ub α := by
  unfold rotateAround coneDir Vec.cross Vec.dot
  simp only [Vec.smul_def, Vec.add_def]
  rw [Vec.ext_iff]
  refine ⟨by ring, by ring, by ring⟩

theorem rotateAround_vertical_neg (z ua ub α : ℝ) :
    rotateAround ⟨0, 0, -z⟩ ⟨ub, -ua, 0⟩ (-α) =
      coneDir z (-ua) (-ub) α := by
  unfold rotateAround coneDir Vec.cross Vec.dot
  simp only [Vec.smul_def, Vec.add_def, Real.cos_neg, Real.sin_neg]
  rw [Vec.ext_iff]
  refine ⟨by ring, by ring, by ring⟩

theorem gcsp_normal_eq (p1 p2 : Vec)
    (hab : 0 < (p2.x - p1.x) ^ 2 + (p2.y - p1.y) ^ 2) :
    Vec.unit (Vec.cross (Vec.unit (p2 - p1)) ⟨0, 0, 1⟩) =
      ⟨(p2.y - p1.y) / Real.sqrt ((p2.x - p1.x) ^ 2 + (p2.y - p1.y) ^ 2),
       -((p2.x - p1.x) / Real.sqrt ((p2.x - p1.x) ^ 2 + (p2.y - p1.y) ^ 2)),
       0⟩ := by
  set a := p2.x - p1.x with ha
  set b := p2.y - p1.y with hb
  set c := p2.z - p1.z with hc
  set N := Real.sqrt (a ^ 2 + b ^ 2) with hN
  have hN2 : N ^ 2 = a ^ 2 + b ^ 2 := Real.sq_sqrt (by positivity)
  have hNpos : 0 < N := Real.sqrt_pos.mpr hab
  set L := Real.sqrt (a ^ 2 + b ^ 2 + c ^ 2) with hL
  have hL2 : L ^ 2 = a ^ 2 + b ^ 2 + c ^ 2 := Real.sq_sqrt (by positivity)
  have hLpos : 0 < L := Real.sqrt_pos.mpr (by nlinarith [sq_nonneg c])
  have hsub : p2 - p1 = ⟨a, b, c⟩ := by rw [Vec.ext_iff]; exact ⟨rfl, rfl, rfl⟩
  have hnormsub : Vec.norm (p2 - p1) = L := by rw [hsub]; rfl
  have hunit : Vec.unit (p2 - p1) = ⟨a / L, b / L, c / L⟩ := by
    unfold Vec.unit
    rw [hnormsub, hsub]
  have hcross : Vec.cross ⟨a / L, b / L, c / L⟩ ⟨0, 0, 1⟩ =
      ⟨b / L, -(a / L), 0⟩ := by
    unfold Vec.cross
    rw [Vec.ext_iff]
    refine ⟨by ring, by ring, by ring⟩
  have hnorm2 : Vec.norm ⟨b / L, -(a / L), 0⟩ = N / L := by
    unfold Vec.norm
    have harg : (b / L) ^ 2 + (-(a / L)) ^ 2 + (0:ℝ) ^ 2 = (N / L) ^ 2 := by
      field_simp
      linarith [hN2]
    rw [harg]
    exact Real.sqrt_sq (by positivity)
  rw [hunit, hcross]
  unfold Vec.unit
  rw [hnorm2, Vec.ext_iff]
  have hL0 : L ≠ 0 := ne_of_gt hLpos
  have hN0 : N ≠ 0 := ne_of_gt hNpos
  refine ⟨by field_simp, by field_simp; ring, by simp⟩

theorem getCommonSupportPoint_degenerate (p1 p2 : Vec) (α : ℝ)
    (hab : (p2.x - p1.x) ^ 2 + (p2.y - p1.y) ^ 2 = 0) :
    getCommonSupportPoint p1 p2 α = p1 := by
  have ha : p2.x - p1.x = 0 := by nlinarith [sq_nonneg (p2.x - p1.x), sq_nonneg (p2.y - p1.y)]
  have hb : p2.y - p1.y = 0 := by nlinarith [sq_nonneg (p2.x - p1.x), sq_nonneg (p2.y - p1.y)]
  unfold getCommonSupportPoint
  dsimp only
  have hsub : p2 - p1 = ⟨0, 0, p2.z - p1.z⟩ := by
    rw [Vec.ext_iff]
    exact ⟨by simpa using ha, by simpa using hb, rfl⟩
  rw [hsub]
  have hu : Vec.unit ⟨0, 0, p2.z - p1.z⟩ =
      ⟨0, 0, (p2.z - p1.z) / Vec.norm ⟨0, 0, p2.z - p1.z⟩⟩ := by
    unfold Vec.unit
    rw [Vec.ext_iff]
    norm_num
  rw [hu]
  have hcr : Vec.cross ⟨0, 0, (p2.z - p1.z) / Vec.norm ⟨0, 0, p2.z - p1.z⟩⟩
      ⟨0, 0, 1⟩ = ⟨0, 0, 0⟩ := by
    unfold Vec.cross
    rw [Vec.ext_iff]
    norm_num
  rw [hcr]
  have hu0 : Vec.unit ⟨0, 0, 0⟩ = ⟨0, 0, 0⟩ := by
    unfold Vec.unit Vec.norm
    rw [Vec.ext_iff]
    norm_num
  rw [hu0]
  have hrot : ∀ (v : Vec) (θ : ℝ), rotateAround v ⟨0, 0, 0⟩ θ =
      ⟨Real.cos θ * v.x, Real.cos θ * v.y, Real.cos θ * v.z⟩ := by
    intro v θ
    unfold rotateAround Vec.cross Vec.dot
    simp only [Vec.smul_def, Vec.add_def]
    rw [Vec.ext_iff]
    refine ⟨by ring, by ring, by ring⟩
  rw [hrot, hrot]
  unfold intersectLines
  dsimp only
  rw [if_pos]
  unfold Vec.dot
  simp only [Vec.sub_def, Real.cos_neg]
  ring_nf
  norm_num

theorem coneDir_dot_self (z ua ub α : ℝ) (huv : ua ^ 2 + ub ^ 2 = 1) :
    Vec.dot (coneDir z ua ub α) (coneDir z ua ub α) = z ^ 2 := by
  unfold coneDir Vec.dot
  linear_combination (z ^ 2 * Real.sin α ^ 2) * huv +
    z ^ 2 * (Real.sin_sq_add_cos_sq α)

theorem coneDir_dot_mixed (z1 z2 ua ub α : ℝ) (huv : ua ^ 2 + ub ^ 2 = 1) :
    Vec.dot (coneDir z1 ua ub α) (coneDir z2 (-ua) (-ub) α) =
      z1 * z2 * (Real.cos α ^ 2 - Real.sin α ^ 2) := by
  unfold coneDir Vec.dot
  linear_combination (-(z1 * z2 * Real.sin α ^ 2)) * huv

theorem coneDir_dot_diff1 (z ua ub α N c0 : ℝ) (huv : ua ^ 2 + ub ^ 2 = 1) :
    Vec.dot (coneDir z ua ub α) ⟨-(N * ua), -(N * ub), -c0⟩ =
      z * (c0 * Real.cos α - N * Real.sin α) := by
  unfold coneDir Vec.dot
  linear_combination (-(N * z * Real.sin α)) * huv

theorem coneDir_dot_diff2 (z ua ub α N c0 : ℝ) (huv : ua ^ 2 + ub ^ 2 = 1) :
    Vec.dot (coneDir z (-ua) (-ub) α) ⟨-(N * ua), -(N * ub), -c0⟩ =
      z * (N * Real.sin α + c0 * Real.cos α) := by
  unfold coneDir Vec.dot
  linear_combination (N * z * Real.sin α) * huv

/-- With a nonzero horizontal separation, `getCommonSupportPoint` is the
line intersection of the two rotated cone directions. -/
theorem gcsp_as_intersect (p1 p2 : Vec) (α : ℝ)
    (hab : 0 < (p2.x - p1.x) ^ 2 + (p2.y - p1.y) ^ 2) :
    getCommonSupportPoint p1 p2 α =
      intersectLines p1
        (coneDir p1.z
          ((p2.x - p1.x) / Real.sqrt ((p2.x - p1.x) ^ 2 + (p2.y - p1.y) ^ 2))
          ((p2.y - p1.y) / Real.sqrt ((p2.x - p1.x) ^ 2 + (p2.y - p1.y) ^ 2))
          α)
        p2
        (coneDir p2.z
          (-((p2.x - p1.x) /
            Real.sqrt ((p2.x - p1.x) ^ 2 + (p2.y - p1.y) ^ 2)))
          (-((p2.y - p1.y) /
            Real.sqrt ((p2.x - p1.x) ^ 2 + (p2.y - p1.y) ^ 2)))
          α) := by
  unfold getCommonSupportPoint
  dsimp only
  rw [gcsp_normal_eq p1 p2 hab]
  have hv1 : (⟨p1.x, p1.y, 0⟩ : Vec) - p1 = ⟨0, 0, -p1.z⟩ := by
    rw [Vec.ext_iff]
    norm_num
  have hv2 : (⟨p2.x, p2.y, 0⟩ : Vec) - p2 = ⟨0, 0, -p2.z⟩ := by
    rw [Vec.ext_iff]
    norm_num
  rw [hv1, hv2, rotateAround_vertical, rotateAround_vertical_neg]

theorem intersect_coneDirs_degenerate (p1 p2 : Vec) (α ua ub : ℝ)
    (huv : ua ^ 2 + ub ^ 2 = 1)
    (hlt : p1.z ^ 2 * p2.z ^ 2 *
      (4 * Real.sin α ^ 2 * Real.cos α ^ 2) < 1e-7) :
    intersectLines p1 (coneDir p1.z ua ub α) p2
      (coneDir p2.z (-ua) (-ub) α) = p1 := by
  have hsc := Real.sin_sq_add_cos_sq α
  have hden : p1.z ^ 2 * p2.z ^ 2 -
      p1.z * p2.z * (Real.cos α ^ 2 - Real.sin α ^ 2) *
        (p1.z * p2.z * (Real.cos α ^ 2 - Real.sin α ^ 2)) =
      p1.z ^ 2 * p2.z ^ 2 * (4 * Real.sin α ^ 2 * Real.cos α ^ 2) := by
    linear_combination (-(p1.z ^ 2 * p2.z ^ 2 *
      (1 + Real.sin α ^ 2 + Real.cos α ^ 2))) * hsc
  unfold intersectLines
  dsimp only
  rw [if_pos]
  have hA := coneDir_dot_self p1.z ua ub α huv
  have hC := coneDir_dot_self p2.z (-ua) (-ub) α (by nlinarith)
  have hB := coneDir_dot_mixed p1.z p2.z ua ub α huv
  rw [hA, hC, hB, hden]
  exact hlt

theorem intersect_coneDirs_closed (p1 p2 : Vec) (α N c0 ua ub : ℝ)
    (huv : ua ^ 2 + ub ^ 2 = 1)
    (hx : p2.x - p1.x = N * ua) (hy : p2.y - p1.y = N * ub)
    (hz0 : p2.z - p1.z = c0)
    (hnd : ¬ (p1.z ^ 2 * p2.z ^ 2 *
      (4 * Real.sin α ^ 2 * Real.cos α ^ 2) < 1e-7)) :
    intersectLines p1 (coneDir p1.z ua ub α) p2
      (coneDir p2.z (-ua) (-ub) α) =
      ⟨p1.x + ua * (N * Real.cos α - c0 * Real.sin α) / (2 * Real.cos α),
       p1.y + ub * (N * Real.cos α - c0 * Real.sin α) / (2 * Real.cos α),
       p1.z - (N * Real.cos α - c0 * Real.sin α) / (2 * Real.sin α)⟩ := by
  have hd : p1 - p2 = ⟨-(N * ua), -(N * ub), -c0⟩ := by
    rw [Vec.ext_iff]
    refine ⟨by simp; linarith [hx], by simp; linarith [hy],
      by simp; linarith [hz0]⟩
  have hA := coneDir_dot_self p1.z ua ub α huv
  have hC := coneDir_dot_self p2.z (-ua) (-ub) α (by nlinarith)
  have hB := coneDir_dot_mixed p1.z p2.z ua ub α huv
  have hD := coneDir_dot_diff1 p1.z ua ub α N c0 huv
  have hE := coneDir_dot_diff2 p2.z ua ub α N c0 huv
  have hpos : (0:ℝ) < p1.z ^ 2 * p2.z ^ 2 *
      (4 * Real.sin α ^ 2 * Real.cos α ^ 2) :=
    lt_of_lt_of_le (by norm_num) (not_lt.mp hnd)
  have hz1 : p1.z ≠ 0 := by
    intro h0
    rw [h0] at hpos
    norm_num at hpos
  have hz2 : p2.z ≠ 0 := by
    intro h0
    rw [h0] at hpos
    norm_num at hpos
  have hs : Real.sin α ≠ 0 := by
    intro h0
    rw [h0] at hpos
    norm_num at hpos
  have hc : Real.cos α ≠ 0 := by
    intro h0
    rw [h0] at hpos
    norm_num at hpos
  have hsc := Real.sin_sq_add_cos_sq α
  have hden : p1.z ^ 2 * p2.z ^ 2 -
      p1.z * p2.z * (Real.cos α ^ 2 - Real.sin α ^ 2) *
        (p1.z * p2.z * (Real.cos α ^ 2 - Real.sin α ^ 2)) =
      p1.z ^ 2 * p2.z ^ 2 * (4 * Real.sin α ^ 2 * Real.cos α ^ 2) := by
    linear_combination (-(p1.z ^ 2 * p2.z ^ 2 *
      (1 + Real.sin α ^ 2 + Real.cos α ^ 2))) * hsc
  unfold intersectLines
  dsimp only
  rw [hd, hA, hC, hB, hD, hE]
  rw [if_neg (by rw [hden]; exact hnd)]
  rw [Vec.ext_iff]
  unfold coneDir
  simp only [Vec.add_def, Vec.smul_def]
  have hnum : p1.z * p2.z * (Real.cos α ^ 2 - Real.sin α ^ 2) *
        (p2.z * (N * Real.sin α + c0 * Real.cos α)) -
      p2.z ^ 2 * (p1.z * (c0 * Real.cos α - N * Real.sin α)) =
      p1.z * p2.z ^ 2 * (2 * Real.sin α * Real.cos α *
        (N * Real.cos α - c0 * Real.sin α)) := by
    linear_combination (p1.z * p2.z ^ 2 *
      (c0 * Real.cos α - N * Real.sin α)) * hsc
  rw [hden, hnum]
  have hzz : p1.z ^ 2 * p2.z ^ 2 *
      (4 * Real.sin α ^ 2 * Real.cos α ^ 2) ≠ 0 := ne_of_gt hpos
  refine ⟨?_, ?_, ?_⟩
  · field_simp
    ring
  · field_simp
    ring
  · field_simp
    ring

theorem sqrt_16 : Real.sqrt 16 = 4 := by
  rw [show (16:ℝ) = 4 ^ 2 by norm_num]
  exact Real.sqrt_sq (by norm_num)

/-- Closed form of the common junction for non-degenerate input: writing
`N` for the horizontal separation and `c0` for the height difference, the
junction sits at horizontal fraction `(N cos α - c0 sin α)/(2 cos α)` along
the connector and drops `(N cos α - c0 sin α)/(2 sin α)` below `p1`. -/
theorem getCommonSupportPoint_closed (p1 p2 : Vec) (α : ℝ)
    (hab : 0 < (p2.x - p1.x) ^ 2 + (p2.y - p1.y) ^ 2)
    (hnd : ¬ (p1.z ^ 2 * p2.z ^ 2 *
      (4 * Real.sin α ^ 2 * Real.cos α ^ 2) < 1e-7)) :
    getCommonSupportPoint p1 p2 α =
      ⟨p1.x + ((p2.x - p1.x) /
          Real.sqrt ((p2.x - p1.x) ^ 2 + (p2.y - p1.y) ^ 2)) *
          (Real.sqrt ((p2.x - p1.x) ^ 2 + (p2.y - p1.y) ^ 2) * Real.cos α -
            (p2.z - p1.z) * Real.sin α) / (2 * Real.cos α),
       p1.y + ((p2.y - p1.y) /
          Real.sqrt ((p2.x - p1.x) ^ 2 + (p2.y - p1.y) ^ 2)) *
          (Real.sqrt ((p2.x - p1.x) ^ 2 + (p2.y - p1.y) ^ 2) * Real.cos α -
            (p2.z - p1.z) * Real.sin α) / (2 * Real.cos α),
       p1.z - (Real.sqrt ((p2.x - p1.x) ^ 2 + (p2.y - p1.y) ^ 2) *
            Real.cos α - (p2.z - p1.z) * Real.sin α) /
          (2 * Real.sin α)⟩ := by
  have hN2 : Real.sqrt ((p2.x - p1.x) ^ 2 + (p2.y - p1.y) ^ 2) ^ 2 =
      (p2.x - p1.x) ^ 2 + (p2.y - p1.y) ^ 2 := Real.sq_sqrt (by positivity)
  have hN0 : Real.sqrt ((p2.x - p1.x) ^ 2 + (p2.y - p1.y) ^ 2) ≠ 0 :=
    ne_of_gt (Real.sqrt_pos.mpr hab)
  rw [gcsp_as_intersect p1 p2 α hab]
  exact intersect_coneDirs_closed p1 p2 α
    (Real.sqrt ((p2.x - p1.x) ^ 2 + (p2.y - p1.y) ^ 2)) (p2.z - p1.z)
    ((p2.x - p1.x) / Real.sqrt ((p2.x - p1.x) ^ 2 + (p2.y - p1.y) ^ 2))
    ((p2.y - p1.y) / Real.sqrt ((p2.x - p1.x) ^ 2 + (p2.y - p1.y) ^ 2))
    (by field_simp) (by field_simp) (by field_simp) rfl hnd

/-- Formalisation of claim C7 as stated: two merge points at height 10 with
horizontal distance 4 yield, for *every* `angleLimit ∈ (0, π/2)`, a common
junction above the segment midpoint at height `10 - 2/tan(angleLimit)`. -/
def claimC7 : Prop :=
  ∀ (x1 y1 a b angleLimit : ℝ), a ^ 2 + b ^ 2 = 16 →
    0 < angleLimit → angleLimit < π / 2 →
    getCommonSupportPoint ⟨x1, y1, 10⟩ ⟨x1 + a, y1 + b, 10⟩ angleLimit =
      ⟨x1 + a / 2, y1 + b / 2, 10 - 2 / Real.tan angleLimit⟩

/-- C7, counterexample: at `angleLimit = 1e-6` the intersection denominator
`10^4 · sin²(2·angleLimit) < 1e-7` falls below the degeneracy threshold of
`intersectLines`, which then returns `p1 = (0,0,10)` instead of the claimed
junction `(2, 0, 10 - 2/tan(1e-6))`. -/
theorem c7_counterexample : ¬ claimC7 := by
  intro h
  have hα2 : (1e-6:ℝ) < π / 2 := by nlinarith [Real.pi_gt_three]
  have heq := h 0 0 4 0 1e-6 (by norm_num) (by norm_num) hα2
  have hres : getCommonSupportPoint ⟨0, 0, 10⟩ ⟨0 + 4, 0 + 0, 10⟩ 1e-6 =
      ⟨0, 0, 10⟩ := by
    rw [gcsp_as_intersect _ _ _ (by norm_num)]
    apply intersect_coneDirs_degenerate
    · norm_num [sqrt_16]
    · have hslt : Real.sin 1e-6 < 1e-6 := Real.sin_lt (by norm_num)
      have hspos : 0 < Real.sin 1e-6 :=
        Real.sin_pos_of_pos_of_lt_pi (by norm_num)
          (by nlinarith [Real.pi_gt_three])
      have hcle : Real.cos 1e-6 ≤ 1 := Real.cos_le_one _
      have hcge : (-1:ℝ) ≤ Real.cos 1e-6 := Real.neg_one_le_cos _
      show (10:ℝ) ^ 2 * 10 ^ 2 *
        (4 * Real.sin 1e-6 ^ 2 * Real.cos 1e-6 ^ 2) < 1e-7
      have hs2 : Real.sin 1e-6 ^ 2 < 1e-12 := by nlinarith
      have hc2 : Real.cos 1e-6 ^ 2 ≤ 1 := by nlinarith
      nlinarith [mul_nonneg (sq_nonneg (Real.sin 1e-6))
        (sub_nonneg.mpr hc2), sq_nonneg (Real.sin 1e-6),
        sq_nonneg (Real.cos 1e-6)]
  have hcontra := hres.symm.trans heq
  rw [Vec.ext_iff] at hcontra
  norm_num at hcontra

/-- C7 (amended): the claimed junction
`(mid_x, mid_y, 10 - 2/tan(angleLimit))` is returned *provided* the
intersection denominator `10^4 · sin²(2·angleLimit)` reaches the `1e-7`
degeneracy threshold of `intersectLines` (for `angleLimit` so close to `0`
or `π/2` that it falls below the threshold, `getCommonSupportPoint` returns
`p1` instead). -/
theorem c7_amended (x1 y1 a b angleLimit : ℝ) (hab : a ^ 2 + b ^ 2 = 16)
    (h0 : 0 < angleLimit) (h2 : angleLimit < π / 2)
    (hnd : 1e-7 ≤ 10 ^ 4 * Real.sin (2 * angleLimit) ^ 2) :
    getCommonSupportPoint ⟨x1, y1, 10⟩ ⟨x1 + a, y1 + b, 10⟩ angleLimit =
      ⟨x1 + a / 2, y1 + b / 2, 10 - 2 / Real.tan angleLimit⟩ := by
  have hs : 0 < Real.sin angleLimit :=
    Real.sin_pos_of_pos_of_lt_pi h0 (by nlinarith [Real.pi_pos])
  have hc : 0 < Real.cos angleLimit :=
    Real.cos_pos_of_mem_Ioo ⟨by nlinarith [Real.pi_pos], h2⟩
  have hxx : ((⟨x1 + a, y1 + b, 10⟩ : Vec).x - (⟨x1, y1, 10⟩ : Vec).x) = a :=
    by simp
  have hyy : ((⟨x1 + a, y1 + b, 10⟩ : Vec).y - (⟨x1, y1, 10⟩ : Vec).y) = b :=
    by simp
  have hzz : ((⟨x1 + a, y1 + b, 10⟩ : Vec).z - (⟨x1, y1, 10⟩ : Vec).z) = 0 :=
    by simp
  have hnd' : ¬ ((⟨x1, y1, 10⟩ : Vec).z ^ 2 * (⟨x1 + a, y1 + b, 10⟩ : Vec).z ^ 2 *
      (4 * Real.sin angleLimit ^ 2 * Real.cos angleLimit ^ 2) < 1e-7) := by
    rw [Real.sin_two_mul] at hnd
    push_neg
    show (1e-7:ℝ) ≤ (10:ℝ) ^ 2 * 10 ^ 2 *
      (4 * Real.sin angleLimit ^ 2 * Real.cos angleLimit ^ 2)
    nlinarith [hnd]
  have hab' : 0 < ((⟨x1 + a, y1 + b, 10⟩ : Vec).x - (⟨x1, y1, 10⟩ : Vec).x) ^ 2 +
      ((⟨x1 + a, y1 + b, 10⟩ : Vec).y - (⟨x1, y1, 10⟩ : Vec).y) ^ 2 := by
    rw [hxx, hyy]
    nlinarith [hab]
  rw [getCommonSupportPoint_closed _ _ _ hab' hnd']
  rw [Vec.ext_iff]
  simp only [hxx, hyy, hzz]
  have hsqrt : Real.sqrt (a ^ 2 + b ^ 2) = 4 := by rw [hab]; exact sqrt_16
  rw [hsqrt]
  have htan : Real.tan angleLimit =
      Real.sin angleLimit / Real.cos angleLimit := Real.tan_eq_sin_div_cos _
  refine ⟨?_, ?_, ?_⟩
  · show x1 + a / 4 * (4 * Real.cos angleLimit - 0 * Real.sin angleLimit) /
      (2 * Real.cos angleLimit) = x1 + a / 2
    field_simp
    ring
  · show y1 + b / 4 * (4 * Real.cos angleLimit - 0 * Real.sin angleLimit) /
      (2 * Real.cos angleLimit) = y1 + b / 2
    field_simp
    ring
  · show (10:ℝ) - (4 * Real.cos angleLimit - 0 * Real.sin angleLimit) /
      (2 * Real.sin angleLimit) = 10 - 2 / Real.tan angleLimit
    rw [htan]
    field_simp
    ring

/-- Witness for `c7_amended` at `angleLimit = π/4`: junction `(2, 0, 8)`. -/
theorem c7_amended_witness :
    (0:ℝ) ^ 2 + 0 ^ 2 + 16 = 16 ∧ 0 < π / 4 ∧ π / 4 < π / 2 ∧
      (1e-7:ℝ) ≤ 10 ^ 4 * Real.sin (2 * (π / 4)) ^ 2 ∧
      getCommonSupportPoint ⟨0, 0, 10⟩ ⟨0 + 4, 0 + 0, 10⟩ (π / 4) =
        ⟨0 + 4 / 2, 0 + 0 / 2, 10 - 2 / Real.tan (π / 4)⟩ :=
  ⟨by norm_num, by positivity, by nlinarith [Real.pi_pos],
   by
    rw [show 2 * (π / 4) = π / 2 by ring, Real.sin_pi_div_two]
    norm_num,
   c7_amended 0 0 4 0 (π / 4) (by norm_num) (by positivity)
     (by nlinarith [Real.pi_pos])
     (by
      rw [show 2 * (π / 4) = π / 2 by ring, Real.sin_pi_div_two]
      norm_num)⟩

/-- The strut radius of `MyViewer::addStrut`:
`r = diameterCoefficient * length * (θ == 0 ? 1 : θ)`, clamped below by 1. -/
def strutR (top bottom : SupportPoint) (diameterCoefficient : ℝ) : ℝ :=
  let length := Vec.norm (top.location - bottom.location)
  let r0 := diameterCoefficient * length *
    (if angleOfVectors (top.location - bottom.location) ⟨0, 0, 1⟩ = 0 then 1
     else angleOfVectors (top.location - bottom.location) ⟨0, 0, 1⟩)
  if r0 < 1 then 1 else r0

/-- Vertex `i` of the upper ring of `MyViewer::addStrut`:
`topPoint + rotateAround((r,0,0), +Z, i·2π/3)`. -/
def strutTopTriangle (top bottom : SupportPoint) (diameterCoefficient : ℝ)
    (i : ℕ) : Vec :=
  top.location + rotateAround ⟨strutR top bottom diameterCoefficient, 0, 0⟩
    ⟨0, 0, 1⟩ ((i : ℝ) * 2 * π / 3)

/-- Vertex `i` of the lower ring of `MyViewer::addStrut`; a MODEL-origin
bottom tilts the ring to the surface normal. -/
def strutBottomTriangle (top bottom : SupportPoint) (diameterCoefficient : ℝ)
    (i : ℕ) : Vec :=
  if bottom.type = MODEL then
    let r := strutR top bottom diameterCoefficient
    let perp := Vec.cross (r • Vec.unit bottom.normal) ⟨1, 0, 0⟩
    let distance := r / Vec.norm perp
    bottom.location +
      rotateAround (distance • perp) bottom.normal ((i : ℝ) * 2 * π / 3)
  else
    bottom.location +
      rotateAround ⟨strutR top bottom diameterCoefficient, 0, 0⟩ ⟨0, 0, 1⟩
        ((i : ℝ) * 2 * π / 3)

/-- `MyViewer::addStrut`, returning the list of emitted triangles (each
`addFace` call adds three fresh vertices and one face to `supportMesh`). -/
def addStrut (top bottom : SupportPoint) (diameterCoefficient : ℝ) :
    List (Vec × Vec × Vec) :=
  let tt := strutTopTriangle top bottom diameterCoefficient
  let bt := strutBottomTriangle top bottom diameterCoefficient
  if top.type = MODEL then
    [(top.location, bt 0, bt 1),
     (top.location, bt 1, bt 2),
     (top.location, bt 2, bt 0)]
  else
    (tt 0, tt 1, tt 2) ::
    (if bottom.type = MODEL then
      [(tt 0, bt 1, bt 2),
       (tt 0, bt 2, tt 1),
       (tt 1, bt 2, bt 0),
       (tt 1, bt 0, tt 2),
       (tt 2, bt 0, bt 1),
       (tt 2, bt 1, tt 0)]
    else
      [(tt 0, bt 0, bt 1),
       (tt 0, bt 1, tt 1),
       (tt 1, bt 1, bt 2),
       (tt 1, bt 2, tt 2),
       (tt 2, bt 2, bt 0),
       (tt 2, bt 0, tt 0),
       (bt 2, bt 1, bt 0)])

/-- Formalisation of claim C9 as stated: for a tree edge with neither
endpoint of origin MODEL the strut is the upper cap plus the six side
triangles, with the lower cap appended exactly when the lower endpoint is
PLATE (a COMMON lower endpoint receives no lower cap). -/
def claimC9 : Prop :=
  ∀ (top bottom : SupportPoint) (dc : ℝ),
    top.type ≠ MODEL → bottom.type ≠ MODEL →
    addStrut top bottom dc =
      (strutTopTriangle top bottom dc 0, strutTopTriangle top bottom dc 1,
        strutTopTriangle top bottom dc 2) ::
      [(strutTopTriangle top bottom dc 0, strutBottomTriangle top bottom dc 0,
          strutBottomTriangle top bottom dc 1),
       (strutTopTriangle top bottom dc 0, strutBottomTriangle top bottom dc 1,
          strutTopTriangle top bottom dc 1),
       (strutTopTriangle top bottom dc 1, strutBottomTriangle top bottom dc 1,
          strutBottomTriangle top bottom dc 2),
       (strutTopTriangle top bottom dc 1, strutBottomTriangle top bottom dc 2,
          strutTopTriangle top bottom dc 2),
       (strutTopTriangle top bottom dc 2, strutBottomTriangle top bottom dc 2,
          strutBottomTriangle top bottom dc 0),
       (strutTopTriangle top bottom dc 2, strutBottomTriangle top bottom dc 0,
          strutTopTriangle top bottom dc 0)] ++
      (if bottom.type = PLATE then
        [(strutBottomTriangle top bottom dc 2,
          strutBottomTriangle top bottom dc 1,
          strutBottomTriangle top bottom dc 0)]
       else [])

/-- C9, counterexample: for a COMMON→COMMON strut the code emits eight
faces (the lower cap at line 1327 is emitted for *any* non-MODEL bottom),
while the claim predicts seven (no lower cap for a COMMON lower endpoint). -/
theorem c9_counterexample : ¬ claimC9 := by
  intro h
  have heq := h (mkSP2 ⟨0, 0, 5⟩ COMMON) (mkSP2 ⟨0, 0, 0⟩ COMMON) 1
    (by simp [mkSP2]) (by simp [mkSP2])
  have hlen := congrArg List.length heq
  rw [addStrut] at hlen
  simp [mkSP2] at hlen

/-- C9 (amended): for a tree edge with neither endpoint of origin MODEL the
strut is the upper cap, the six side triangles, and the lower cap — the
lower cap is emitted for *every* non-MODEL lower endpoint, COMMON as well
as PLATE. -/
theorem c9_amended (top bottom : SupportPoint) (dc : ℝ)
    (ht : top.type ≠ MODEL) (hb : bottom.type ≠ MODEL) :
    addStrut top bottom dc =
      (strutTopTriangle top bottom dc 0, strutTopTriangle top bottom dc 1,
        strutTopTriangle top bottom dc 2) ::
      [(strutTopTriangle top bottom dc 0, strutBottomTriangle top bottom dc 0,
          strutBottomTriangle top bottom dc 1),
       (strutTopTriangle top bottom dc 0, strutBottomTriangle top bottom dc 1,
          strutTopTriangle top bottom dc 1),
       (strutTopTriangle top bottom dc 1, strutBottomTriangle top bottom dc 1,
          strutBottomTriangle top bottom dc 2),
       (strutTopTriangle top bottom dc 1, strutBottomTriangle top bottom dc 2,
          strutTopTriangle top bottom dc 2),
       (strutTopTriangle top bottom dc 2, strutBottomTriangle top bottom dc 2,
          strutBottomTriangle top bottom dc 0),
       (strutTopTriangle top bottom dc 2, strutBottomTriangle top bottom dc 0,
          strutTopTriangle top bottom dc 0)] ++
      [(strutBottomTriangle top bottom dc 2,
        strutBottomTriangle top bottom dc 1,
        strutBottomTriangle top bottom dc 0)] := by
  unfold addStrut
  rw [if_neg ht, if_neg hb]
  rfl

/-- Witness for `c9_amended`: a concrete COMMON→COMMON strut. -/
theorem c9_amended_witness :
    (mkSP2 ⟨0, 0, 5⟩ COMMON).type ≠ MODEL ∧
    (mkSP2 ⟨0, 0, 0⟩ COMMON).type ≠ MODEL ∧
    (addStrut (mkSP2 ⟨0, 0, 5⟩ COMMON) (mkSP2 ⟨0, 0, 0⟩ COMMON) 1).length =
      8 := by
  refine ⟨by simp [mkSP2], by simp [mkSP2], ?_⟩
  rw [c9_amended (mkSP2 ⟨0, 0, 5⟩ COMMON) (mkSP2 ⟨0, 0, 0⟩ COMMON) 1
    (by simp [mkSP2]) (by simp [mkSP2])]
  rfl

/-- The loop of `MyViewer::addTreeGeometry`: one strut per tree edge,
skipping edges whose two endpoints coincide. -/
def addTreeGeometry (treePoints : List TreePoint)
    (diameterCoefficient : ℝ) : List (Vec × Vec × Vec) :=
  (treePoints.map fun t =>
    if t.point.location ≠ t.nextPoint.location then
      addStrut t.point t.nextPoint diameterCoefficient
    else []).flatten

/-- C10: a tree edge whose endpoints coincide contributes nothing — the
support mesh built with it is exactly the support mesh built without it (no
faces, hence no vertices, are added for it). -/
theorem c10_zero_length_strut (l1 l2 : List TreePoint) (t : TreePoint)
    (dc : ℝ) (h : t.point.location = t.nextPoint.location) :
    addTreeGeometry (l1 ++ t :: l2) dc = addTreeGeometry (l1 ++ l2) dc := by
  unfold addTreeGeometry
  simp [h]

/-- Witness for `c10_zero_length_strut` on a concrete degenerate edge. -/
theorem c10_zero_length_strut_witness :
    (TreePoint.mk (mkSP2 ⟨1, 2, 3⟩ COMMON) (mkSP2 ⟨1, 2, 3⟩ PLATE)).point.location =
      (TreePoint.mk (mkSP2 ⟨1, 2, 3⟩ COMMON)
        (mkSP2 ⟨1, 2, 3⟩ PLATE)).nextPoint.location ∧
    addTreeGeometry ([] ++ TreePoint.mk (mkSP2 ⟨1, 2, 3⟩ COMMON)
        (mkSP2 ⟨1, 2, 3⟩ PLATE) :: []) 1 =
      addTreeGeometry ([] ++ []) 1 :=
  ⟨rfl, c10_zero_length_strut [] [] _ 1 rfl⟩

/-- Non-degeneracy of a triangular face: the two edge vectors `A - B` and
`C - B` used by `generateFacePoints` are linearly independent (the triangle
has positive area). -/
def NondegenerateFace (f : MeshFace) : Prop :=
  ∀ s t : ℝ, s • (f.a - f.b) + t • (f.c - f.b) = (⟨0, 0, 0⟩ : Vec) →
    s = 0 ∧ t = 0

/-- The barycentric lattice point `B + (j/(g-1))·v1 + (m/(g-1))·v2` hit by
the face sampler. -/
def faceLoc (Bv v1 v2 : Vec) (g : ℕ) (j m : ℕ) : Vec :=
  Bv + ((j : ℝ) / ((g : ℝ) - 1)) • v1 + ((m : ℝ) / ((g : ℝ) - 1)) • v2

theorem faceLoc_inj (Bv v1 v2 : Vec) (g : ℕ) (hg : 2 ≤ g)
    (hindep : ∀ s t : ℝ, s • v1 + t • v2 = (⟨0, 0, 0⟩ : Vec) →
      s = 0 ∧ t = 0)
    (j m j' m' : ℕ) (heq : faceLoc Bv v1 v2 g j m = faceLoc Bv v1 v2 g j' m') :
    j = j' ∧ m = m' := by
  have hg1 : ((g : ℝ) - 1) ≠ 0 := by
    have : (2 : ℝ) ≤ (g : ℝ) := by exact_mod_cast hg
    linarith
  unfold faceLoc at heq
  rw [Vec.ext_iff] at heq
  simp only [Vec.add_def, Vec.smul_def] at heq
  obtain ⟨hx, hy, hz⟩ := heq
  have hzero : (((j : ℝ) - j') / ((g : ℝ) - 1)) • v1 +
      (((m : ℝ) - m') / ((g : ℝ) - 1)) • v2 = (⟨0, 0, 0⟩ : Vec) := by
    rw [Vec.ext_iff]
    simp only [Vec.add_def, Vec.smul_def]
    field_simp at hx hy hz
    refine ⟨?_, ?_, ?_⟩ <;> field_simp <;> linarith
  obtain ⟨h1, h2⟩ := hindep _ _ hzero
  have hj : (j : ℝ) = j' := by
    have := div_eq_zero_iff.mp h1
    rcases this with h | h
    · linarith
    · exact absurd h hg1
  have hm : (m : ℝ) = m' := by
    have := div_eq_zero_iff.mp h2
    rcases this with h | h
    · linarith
    · exact absurd h hg1
  exact ⟨Nat.cast_injective hj, Nat.cast_injective hm⟩

/-- Each sampled row is the lattice row `j + m = i - 1`. -/
theorem generateEdgePoints_row (Bv v1 v2 n : Vec) (g i : ℕ) (hg : 2 ≤ g)
    (hi2 : 2 ≤ i) :
    generateEdgePoints
        (Bv + (((i : ℝ) - 1) / ((g : ℝ) - 1)) • v1)
        (Bv + (((i : ℝ) - 1) / ((g : ℝ) - 1)) • v2) i n =
      (List.range i).map fun j =>
        ⟨faceLoc Bv v1 v2 g j (i - 1 - j), MODEL, n⟩ := by
  have hg1 : ((g : ℝ) - 1) ≠ 0 := by
    have : (2 : ℝ) ≤ (g : ℝ) := by exact_mod_cast hg
    linarith
  have hi1 : ((i : ℝ) - 1) ≠ 0 := by
    have : (2 : ℝ) ≤ (i : ℝ) := by exact_mod_cast hi2
    linarith
  unfold generateEdgePoints
  apply List.map_congr_left
  intro j hj
  have hji : j < i := List.mem_range.mp hj
  have hcast : ((i - 1 - j : ℕ) : ℝ) = (i : ℝ) - 1 - (j : ℝ) := by
    have h1 : j ≤ i - 1 := by omega
    have h2 : 1 ≤ i := by omega
    push_cast [Nat.cast_sub h1, Nat.cast_sub h2]
    ring
  rw [SupportPoint.mk.injEq]
  refine ⟨?_, rfl, rfl⟩
  unfold faceLoc Vec.dvd
  rw [Vec.ext_iff]
  simp only [Vec.add_def, Vec.sub_def, Vec.smul_def]
  rw [hcast]
  refine ⟨?_, ?_, ?_⟩ <;> field_simp <;> ring

theorem faceLoc_zero (Bv v1 v2 : Vec) (g : ℕ) :
    faceLoc Bv v1 v2 g 0 0 = Bv := by
  unfold faceLoc
  rw [Vec.ext_iff]
  simp

/-- `generateFacePoints` as the triangular lattice: row `k` holds the lattice
points with coordinate sum `g - k - 1`, and the apex is `(0,0)`. -/
theorem generateFacePoints_eq (f : MeshFace) (g : ℕ) (hg : 2 ≤ g) :
    generateFacePoints f g =
      (((List.range (g - 1)).map fun k =>
        (List.range (g - k)).map fun j =>
          (⟨faceLoc f.b (f.a - f.b) (f.c - f.b) g j (g - k - 1 - j), MODEL,
            f.normal⟩ : SupportPoint)).flatten)
      ++ [⟨f.b, MODEL, f.normal⟩] := by
  unfold generateFacePoints
  dsimp only
  congr 1
  congr 1
  apply List.map_congr_left
  intro k hk
  have hklt : k < g - 1 := List.mem_range.mp hk
  have hi2 : 2 ≤ g - k := by omega
  exact generateEdgePoints_row f.b (f.a - f.b) (f.c - f.b) f.normal g (g - k)
    hg hi2

theorem generateFacePoints_map_loc (f : MeshFace) (g : ℕ) (hg : 2 ≤ g) :
    (generateFacePoints f g).map SupportPoint.location =
      (((List.range (g - 1)).map fun k =>
        (List.range (g - k)).map fun j =>
          faceLoc f.b (f.a - f.b) (f.c - f.b) g j (g - k - 1 - j)).flatten)
      ++ [f.b] := by
  rw [generateFacePoints_eq f g hg, List.map_append, List.map_flatten,
    List.map_map]
  congr 1
  congr 1
  apply List.map_congr_left
  intro k _
  rw [Function.comp, List.map_map]
  rfl

theorem generateFacePoints_nodup_loc (f : MeshFace) (g : ℕ) (hg : 2 ≤ g)
    (hnd : NondegenerateFace f) :
    ((generateFacePoints f g).map SupportPoint.location).Nodup := by
  have hinj := faceLoc_inj f.b (f.a - f.b) (f.c - f.b) g hg hnd
  rw [generateFacePoints_map_loc f g hg, List.nodup_append]
  refine ⟨?_, by simp, ?_⟩
  · rw [List.nodup_flatten]
    constructor
    · intro l hl
      rw [List.mem_map] at hl
      obtain ⟨k, -, hkeq⟩ := hl
      rw [← hkeq]
      apply List.Nodup.map
      · intro j j' hjj
        exact (hinj j (g - k - 1 - j) j' (g - k - 1 - j') hjj).1
      · exact List.nodup_range _
    · rw [List.pairwise_map]
      apply (List.pairwise_lt_range (g - 1)).imp_of_mem
      intro k k' hk hk' hlt
      intro x hx hx'
      rw [List.mem_map] at hx hx'
      obtain ⟨j, hj, hjeq⟩ := hx
      obtain ⟨j', hj', hjeq'⟩ := hx'
      rw [List.mem_range] at hj hj'
      rw [List.mem_range] at hk hk'
      obtain ⟨he1, he2⟩ := hinj j (g - k - 1 - j) j' (g - k' - 1 - j')
        (hjeq.trans hjeq'.symm)
      omega
  · intro x hx hxb
    rw [List.mem_singleton] at hxb
    rw [List.mem_flatten] at hx
    obtain ⟨l, hl, hxl⟩ := hx
    rw [List.mem_map] at hl
    obtain ⟨k, hk, hkeq⟩ := hl
    rw [← hkeq, List.mem_map] at hxl
    obtain ⟨j, hj, hjeq⟩ := hxl
    rw [List.mem_range] at hj hk
    have hx0 : faceLoc f.b (f.a - f.b) (f.c - f.b) g j (g - k - 1 - j) =
        faceLoc f.b (f.a - f.b) (f.c - f.b) g 0 0 := by
      rw [faceLoc_zero]
      rw [hjeq, hxb]
    obtain ⟨he1, he2⟩ := hinj j (g - k - 1 - j) 0 0 hx0
    omega

theorem sum_map_add_one (h : ℕ → ℕ) (l : List ℕ) :
    (l.map fun k => h k + 1).sum = (l.map h).sum + l.length := by
  induction l with
  | nil => rfl
  | cons a t ih =>
      simp only [List.map_cons, List.sum_cons, List.length_cons, ih]
      omega

theorem row_sum_formula (n : ℕ) :
    2 * ((((List.range (n + 1)).map fun k => n + 2 - k).sum) + 1) =
      (n + 2) * (n + 3) := by
  induction n with
  | zero => rfl
  | succ m ih =>
      rw [List.range_succ, List.map_append, List.sum_append]
      have hcongr : (List.range (m + 1)).map (fun k => m + 1 + 2 - k) =
          (List.range (m + 1)).map fun k => (m + 2 - k) + 1 := by
        apply List.map_congr_left
        intro k hk
        have := List.mem_range.mp hk
        omega
      rw [hcongr, sum_map_add_one]
      simp only [List.length_range, List.map_cons, List.map_nil,
        List.sum_cons, List.sum_nil]
      set S := ((List.range (m + 1)).map fun k => m + 2 - k).sum with hS
      set P := (m + 2) * (m + 3) with hP
      have hQ : (m + 1 + 2) * (m + 1 + 3) = P + 2 * (m + 3) := by
        rw [hP]
        ring
      rw [hQ]
      omega

theorem generateFacePoints_length (f : MeshFace) (g : ℕ) (hg : 2 ≤ g) :
    2 * (generateFacePoints f g).length = g * (g + 1) := by
  obtain ⟨n, rfl⟩ : ∃ n, g = n + 2 := ⟨g - 2, by omega⟩
  rw [generateFacePoints_eq f (n + 2) hg]
  rw [List.length_append, List.length_flatten, List.map_map]
  have hlen : ((List.range (n + 2 - 1)).map
      (List.length ∘ fun k =>
        (List.range (n + 2 - k)).map fun j =>
          (⟨faceLoc f.b (f.a - f.b) (f.c - f.b) (n + 2) j
              (n + 2 - k - 1 - j), MODEL, f.normal⟩ : SupportPoint))) =
      (List.range (n + 1)).map fun k => n + 2 - k := by
    rw [show n + 2 - 1 = n + 1 from rfl]
    apply List.map_congr_left
    intro k _
    simp [Function.comp]
  rw [hlen]
  simpa using row_sum_formula n

theorem uniqueAdj_eq_of_nodupLoc (l : List SupportPoint)
    (hnd : (l.map SupportPoint.location).Nodup) : uniqueAdj l = l := by
  induction l using uniqueAdj.induct with
  | case1 => simp [uniqueAdj]
  | case2 a => simp [uniqueAdj]
  | case3 a b rest h ih =>
      exfalso
      simp only [List.map_cons, List.nodup_cons, List.mem_cons] at hnd
      exact hnd.1 (Or.inl h)
  | case4 a b rest h ih =>
      rw [uniqueAdj, if_neg h]
      congr 1
      apply ih
      simp only [List.map_cons, List.nodup_cons] at hnd ⊢
      exact ⟨hnd.2.1, hnd.2.2⟩

/-- C6: for a non-degenerate triangular face that is the only flagged
element and any integer `gridDensity ≥ 2`, sampling produces exactly
`g(g+1)/2` support points after deduplication: the lattice points of the
rows `i = g, …, 2` plus the apex are pairwise distinct, so neither the sort
nor `std::unique` removes anything. -/
theorem c6_face_sample_count (f : MeshFace) (g : ℕ) (hg : 2 ≤ g)
    (hnd : NondegenerateFace f) :
    (calculatePointsToSupport [] [] [f] g).length = g * (g + 1) / 2 := by
  have hq : calculatePointsToSupport [] [] [f] g =
      uniqueAdj (sortPointsToSupport (generateFacePoints f g)) := by
    unfold calculatePointsToSupport
    simp
  have hnodup := generateFacePoints_nodup_loc f g hg hnd
  have hperm := List.perm_insertionSort spLE (generateFacePoints f g)
  have hnodup2 : ((sortPointsToSupport (generateFacePoints f g)).map
      SupportPoint.location).Nodup :=
    ((hperm.map SupportPoint.location).nodup_iff).mpr hnodup
  rw [hq, uniqueAdj_eq_of_nodupLoc _ hnodup2]
  have hlen : (sortPointsToSupport (generateFacePoints f g)).length =
      (generateFacePoints f g).length := hperm.length_eq
  rw [hlen]
  have h2 := generateFacePoints_length f g hg
  omega

/-- Witness for `c6_face_sample_count`: the unit right triangle in the
plane `z = 0` at `gridDensity = 2` yields three support points. -/
theorem c6_face_sample_count_witness :
    2 ≤ 2 ∧
    NondegenerateFace ⟨⟨1, 0, 0⟩, ⟨0, 0, 0⟩, ⟨0, 1, 0⟩, ⟨0, 0, -1⟩⟩ ∧
    (calculatePointsToSupport [] []
      [⟨⟨1, 0, 0⟩, ⟨0, 0, 0⟩, ⟨0, 1, 0⟩, ⟨0, 0, -1⟩⟩] 2).length =
      2 * (2 + 1) / 2 := by
  have hndf : NondegenerateFace ⟨⟨1, 0, 0⟩, ⟨0, 0, 0⟩, ⟨0, 1, 0⟩, ⟨0, 0, -1⟩⟩ := by
    intro s t hst
    rw [Vec.ext_iff] at hst
    simp only [Vec.add_def, Vec.smul_def, Vec.sub_def] at hst
    obtain ⟨h1, h2, -⟩ := hst
    constructor <;> nlinarith [h1, h2]
  exact ⟨le_refl 2, hndf,
    c6_face_sample_count ⟨⟨1, 0, 0⟩, ⟨0, 0, 0⟩, ⟨0, 1, 0⟩, ⟨0, 0, -1⟩⟩ 2
      (le_refl 2) hndf⟩

/-- The elevation angle of any nonzero multiple of a cone direction equals
exactly `π/2 - α`: the struts produced by the merge construction lie on the
boundary of the self-support cone. -/
theorem coneAngle (w : Vec) (k α : ℝ) (hk : k ≠ 0)
    (hxy : w.x ^ 2 + w.y ^ 2 = k ^ 2 * Real.sin α ^ 2)
    (hnorm : w.x ^ 2 + w.y ^ 2 + w.z ^ 2 = k ^ 2)
    (h0 : 0 ≤ α) (h2 : α ≤ π / 2) :
    angleOfVectors w ⟨w.x, w.y, 0⟩ = π / 2 - α := by
  have hpi := Real.pi_pos
  rcases eq_or_lt_of_le (Real.sin_nonneg_of_nonneg_of_le_pi h0
    (by linarith)) with hs0 | hs
  · have hα0 : α = 0 := by
      rcases (Real.sin_eq_zero_iff_of_lt_of_lt (by linarith) (by linarith)).mp
        hs0.symm with h
      exact h
    have hsq : w.x ^ 2 + w.y ^ 2 = 0 := by
      rw [hxy, ← hs0]
      ring
    have hx0 : w.x = 0 := by nlinarith [sq_nonneg w.x, sq_nonneg w.y]
    have hy0 : w.y = 0 := by nlinarith [sq_nonneg w.x, sq_nonneg w.y]
    unfold angleOfVectors Vec.dot Vec.norm
    rw [hx0, hy0, hα0]
    norm_num [Real.arccos_zero]
  · have habs : |k| * Real.sin α ≥ 0 :=
      mul_nonneg (abs_nonneg k) (le_of_lt hs)
    unfold angleOfVectors Vec.dot Vec.norm
    have h1 : Real.sqrt (w.x ^ 2 + w.y ^ 2 + w.z ^ 2) = |k| := by
      rw [hnorm]
      exact Real.sqrt_sq_eq_abs k
    have h2' : Real.sqrt (w.x ^ 2 + w.y ^ 2 + 0 ^ 2) = |k| * Real.sin α := by
      have harg : w.x ^ 2 + w.y ^ 2 + (0:ℝ) ^ 2 =
          (|k| * Real.sin α) ^ 2 := by
        rw [mul_pow, sq_abs]
        rw [hxy]
        ring
      rw [harg]
      exact Real.sqrt_sq habs
    rw [h1, h2']
    have hdot : w.x * w.x + w.y * w.y + w.z * 0 = k ^ 2 * Real.sin α ^ 2 := by
      nlinarith [hxy]
    rw [hdot]
    have hkabs : |k| > 0 := abs_pos.mpr hk
    have hq : k ^ 2 * Real.sin α ^ 2 / (|k| * (|k| * Real.sin α)) =
        Real.sin α := by
      rw [show |k| * (|k| * Real.sin α) = |k| ^ 2 * Real.sin α by ring,
        sq_abs]
      field_simp
      ring
    rw [hq]
    rw [← Real.cos_pi_div_two_sub α]
    exact Real.arccos_cos (by linarith) (by linarith)

/-- Structure of the common junction: either the degenerate fallback `p1`,
or a point lying simultaneously on both rotated cone lines. -/
theorem getCommonSupportPoint_decomp (p1 p2 : Vec) (α : ℝ) :
    getCommonSupportPoint p1 p2 α = p1 ∨
    (∃ ua ub s t : ℝ, ua ^ 2 + ub ^ 2 = 1 ∧
      Real.sin α ≠ 0 ∧ Real.cos α ≠ 0 ∧ p1.z ≠ 0 ∧ p2.z ≠ 0 ∧
      getCommonSupportPoint p1 p2 α - p1 = s • coneDir p1.z ua ub α ∧
      getCommonSupportPoint p1 p2 α - p2 =
        t • coneDir p2.z (-ua) (-ub) α) := by
  by_cases hab : (p2.x - p1.x) ^ 2 + (p2.y - p1.y) ^ 2 = 0
  · exact Or.inl (getCommonSupportPoint_degenerate p1 p2 α hab)
  · have hab' : 0 < (p2.x - p1.x) ^ 2 + (p2.y - p1.y) ^ 2 :=
      lt_of_le_of_ne (by positivity) (Ne.symm hab)
    have hN2 : Real.sqrt ((p2.x - p1.x) ^ 2 + (p2.y - p1.y) ^ 2) ^ 2 =
        (p2.x - p1.x) ^ 2 + (p2.y - p1.y) ^ 2 := Real.sq_sqrt (by positivity)
    have hN0 : Real.sqrt ((p2.x - p1.x) ^ 2 + (p2.y - p1.y) ^ 2) ≠ 0 :=
      ne_of_gt (Real.sqrt_pos.mpr hab')
    by_cases hnd : p1.z ^ 2 * p2.z ^ 2 *
        (4 * Real.sin α ^ 2 * Real.cos α ^ 2) < 1e-7
    · left
      rw [gcsp_as_intersect p1 p2 α hab']
      exact intersect_coneDirs_degenerate p1 p2 α _ _ (by field_simp) hnd
    · right
      have hpos : (0:ℝ) < p1.z ^ 2 * p2.z ^ 2 *
          (4 * Real.sin α ^ 2 * Real.cos α ^ 2) :=
        lt_of_lt_of_le (by norm_num) (not_lt.mp hnd)
      have hz1 : p1.z ≠ 0 := by
        intro h0
        rw [h0] at hpos
        norm_num at hpos
      have hz2 : p2.z ≠ 0 := by
        intro h0
        rw [h0] at hpos
        norm_num at hpos
      have hs : Real.sin α ≠ 0 := by
        intro h0
        rw [h0] at hpos
        norm_num at hpos
      have hc : Real.cos α ≠ 0 := by
        intro h0
        rw [h0] at hpos
        norm_num at hpos
      set N := Real.sqrt ((p2.x - p1.x) ^ 2 + (p2.y - p1.y) ^ 2) with hN
      refine ⟨(p2.x - p1.x) / N, (p2.y - p1.y) / N,
        (N * Real.cos α - (p2.z - p1.z) * Real.sin α) /
          (2 * p1.z * Real.sin α * Real.cos α),
        (N * Real.cos α + (p2.z - p1.z) * Real.sin α) /
          (2 * p2.z * Real.sin α * Real.cos α),
        by field_simp; linarith [hN2], hs, hc, hz1, hz2, ?_, ?_⟩
      · rw [gcsp_as_intersect p1 p2 α hab',
          intersect_coneDirs_closed p1 p2 α N (p2.z - p1.z)
            ((p2.x - p1.x) / N) ((p2.y - p1.y) / N)
            (by field_simp; linarith [hN2]) (by field_simp) (by field_simp)
            rfl hnd]
        unfold coneDir
        rw [Vec.ext_iff]
        simp only [Vec.sub_def, Vec.smul_def]
        refine ⟨by field_simp; ring, by field_simp; ring, by field_simp; ring⟩
      · rw [gcsp_as_intersect p1 p2 α hab',
          intersect_coneDirs_closed p1 p2 α N (p2.z - p1.z)
            ((p2.x - p1.x) / N) ((p2.y - p1.y) / N)
            (by field_simp; linarith [hN2]) (by field_simp) (by field_simp)
            rfl hnd]
        unfold coneDir
        rw [Vec.ext_iff]
        simp only [Vec.sub_def, Vec.smul_def]
        refine ⟨?_, ?_, ?_⟩
        · field_simp
          ring
        · field_simp
          ring
        · field_simp
          ring

theorem merge_edge1_angle (p1 p2 : Vec) (α : ℝ) (h0 : 0 ≤ α)
    (h2 : α ≤ π / 2) (hz : (getCommonSupportPoint p1 p2 α).z < p1.z) :
    angleOfVectors (getCommonSupportPoint p1 p2 α - p1)
      (⟨(getCommonSupportPoint p1 p2 α).x,
        (getCommonSupportPoint p1 p2 α).y, p1.z⟩ - p1) = π / 2 - α := by
  rcases getCommonSupportPoint_decomp p1 p2 α with h |
    ⟨ua, ub, s, t, huv, hsn, hcn, hz1, hz2, he1, he2⟩
  · rw [h] at hz
    exact absurd hz (lt_irrefl _)
  · have hw : (⟨(getCommonSupportPoint p1 p2 α).x,
        (getCommonSupportPoint p1 p2 α).y, p1.z⟩ : Vec) - p1 =
        ⟨(getCommonSupportPoint p1 p2 α - p1).x,
         (getCommonSupportPoint p1 p2 α - p1).y, 0⟩ := by
      rw [Vec.ext_iff]
      simp [Vec.sub_def]
    rw [hw]
    have hwz : (getCommonSupportPoint p1 p2 α - p1).z < 0 := by
      simp only [Vec.sub_def]
      linarith
    have hk : s * p1.z ≠ 0 := by
      intro hk0
      rw [he1] at hwz
      unfold coneDir at hwz
      simp only [Vec.smul_def] at hwz
      have hzero : s * (Real.cos α * -p1.z) = -Real.cos α * (s * p1.z) := by
        ring
      rw [hk0, mul_zero] at hzero
      linarith [hwz, hzero]
    apply coneAngle (getCommonSupportPoint p1 p2 α - p1) (s * p1.z) α hk
      ?_ ?_ h0 h2
    · rw [he1]
      unfold coneDir
      simp only [Vec.smul_def]
      linear_combination (s ^ 2 * p1.z ^ 2 * Real.sin α ^ 2) * huv
    · rw [he1]
      unfold coneDir
      simp only [Vec.smul_def]
      linear_combination (s ^ 2 * p1.z ^ 2 * Real.sin α ^ 2) * huv +
        (s ^ 2 * p1.z ^ 2) * Real.sin_sq_add_cos_sq α

theorem merge_edge2_angle (p1 p2 : Vec) (α : ℝ) (h0 : 0 ≤ α)
    (h2 : α ≤ π / 2) (hz : (getCommonSupportPoint p1 p2 α).z < p2.z)
    (hz12 : p2.z ≤ p1.z) :
    angleOfVectors (getCommonSupportPoint p1 p2 α - p2)
      (⟨(getCommonSupportPoint p1 p2 α).x,
        (getCommonSupportPoint p1 p2 α).y, p2.z⟩ - p2) = π / 2 - α := by
  rcases getCommonSupportPoint_decomp p1 p2 α with h |
    ⟨ua, ub, s, t, huv, hsn, hcn, hz1, hz2, he1, he2⟩
  · rw [h] at hz
    linarith
  · have hw : (⟨(getCommonSupportPoint p1 p2 α).x,
        (getCommonSupportPoint p1 p2 α).y, p2.z⟩ : Vec) - p2 =
        ⟨(getCommonSupportPoint p1 p2 α - p2).x,
         (getCommonSupportPoint p1 p2 α - p2).y, 0⟩ := by
      rw [Vec.ext_iff]
      simp [Vec.sub_def]
    rw [hw]
    have hwz : (getCommonSupportPoint p1 p2 α - p2).z < 0 := by
      simp only [Vec.sub_def]
      linarith
    have hk : t * p2.z ≠ 0 := by
      intro hk0
      rw [he2] at hwz
      unfold coneDir at hwz
      simp only [Vec.smul_def] at hwz
      have hzero : t * (Real.cos α * -p2.z) = -Real.cos α * (t * p2.z) := by
        ring
      rw [hk0, mul_zero] at hzero
      linarith [hwz, hzero]
    apply coneAngle (getCommonSupportPoint p1 p2 α - p2) (t * p2.z) α hk
      ?_ ?_ h0 h2
    · rw [he2]
      unfold coneDir
      simp only [Vec.smul_def]
      linear_combination (t ^ 2 * p2.z ^ 2 * Real.sin α ^ 2) * huv
    · rw [he2]
      unfold coneDir
      simp only [Vec.smul_def]
      linear_combination (t ^ 2 * p2.z ^ 2 * Real.sin α ^ 2) * huv +
        (t ^ 2 * p2.z ^ 2) * Real.sin_sq_add_cos_sq α

/-- Every non-trivial result of `getClosestPointOnModel` came through the
steep-cone filter: it lies strictly below `p` and its connector angle
exceeds `90° - angleLimit`. -/
theorem getClosestPointOnModel_angle (faces : List MeshFace) (α : ℝ)
    (p : SupportPoint)
    (hne : (getClosestPointOnModel faces α p).location ≠ p.location) :
    (getClosestPointOnModel faces α p).location.z < p.location.z ∧
    angleOfVectors ((getClosestPointOnModel faces α p).location - p.location)
      (⟨(getClosestPointOnModel faces α p).location.x,
        (getClosestPointOnModel faces α p).location.y,
        p.location.z⟩ - p.location) > degToRad 90 - α := by
  have hinv : ∀ (fs : List MeshFace) (acc : Option (Vec × Vec)),
      (∀ c n, acc = some (c, n) → c.z < p.location.z ∧
        angleOfVectors (c - p.location)
          (⟨c.x, c.y, p.location.z⟩ - p.location) > degToRad 90 - α) →
      (∀ c n, fs.foldl (modelScanStep α p) acc = some (c, n) →
        c.z < p.location.z ∧
        angleOfVectors (c - p.location)
          (⟨c.x, c.y, p.location.z⟩ - p.location) > degToRad 90 - α) := by
    intro fs
    induction fs with
    | nil => exact fun acc h => h
    | cons f t ih =>
        intro acc hacc
        simp only [List.foldl]
        apply ih
        intro c n hcn
        unfold modelScanStep at hcn
        dsimp only at hcn
        split_ifs at hcn with hcond
        · rw [Option.some.injEq, Prod.mk.injEq] at hcn
          rw [← hcn.1]
          exact ⟨hcond.1, hcond.2.1⟩
        · exact hacc c n hcn
  have hmain := hinv faces none (by intro c n h; cases h)
  unfold getClosestPointOnModel at hne ⊢
  rcases hfold : faces.foldl (modelScanStep α p) none with - | ⟨c, n⟩
  · rw [hfold] at hne
    simp at hne
  · dsimp only
    exact hmain c n hfold

/-- The merge candidate is the front point itself or a queue entry past the
front. -/
theorem getClosestPointFromPoints_mem (pts : List SupportPoint) (α : ℝ)
    (p : SupportPoint) :
    getClosestPointFromPoints pts α p = p ∨
    getClosestPointFromPoints pts α p ∈ pts.drop 1 := by
  match pts with
  | [] => exact Or.inl rfl
  | [x] => exact Or.inl rfl
  | x :: q :: rest =>
      simp only [getClosestPointFromPoints]
      split_ifs with h
      · exact Or.inl rfl
      · right
        rcases foldl_mergeScan_mem α p (q :: rest) q with h | h
        · rw [h]
          exact List.mem_cons_self _ _
        · exact h

/-- The slope invariant claimed by the spec for a single tree edge: whenever
the upper endpoint is not a MODEL sample, the lower endpoint is not a plate
anchor, and the edge descends, the edge is at least as steep as the
self-support cone. -/
def edgeOK (angleLimit : ℝ) (tp : TreePoint) : Prop :=
  tp.point.type ≠ MODEL → tp.nextPoint.type ≠ PLATE →
  tp.nextPoint.location.z < tp.point.location.z →
  angleOfVectors (tp.nextPoint.location - tp.point.location)
    (⟨tp.nextPoint.location.x, tp.nextPoint.location.y,
      tp.point.location.z⟩ - tp.point.location) ≥ degToRad 90 - angleLimit

/-- In a queue sorted by `spLE`, every entry past the front lies no higher
than the front. -/
theorem sorted_head_z (p : SupportPoint) (rest : List SupportPoint)
    (hs : (p :: rest).Sorted spLE) (q : SupportPoint) (hq : q ∈ rest) :
    q.location.z ≤ p.location.z := by
  have hle := (List.sorted_cons.mp hs).1 q hq
  rcases (spLE_iff p q).mp hle with h | h
  · exact le_of_lt h
  · exact le_of_eq h.1

/-- One router step preserves queue sortedness and the edge slope invariant
on every tree edge whose upper endpoint is not a MODEL sample. -/
theorem routerStep_edgeOK (angleLimit : ℝ) (faces : List MeshFace)
    (lowestZ : ℝ) (st : RouterState) (h0 : 0 ≤ angleLimit)
    (h2 : angleLimit ≤ π / 2) (hsort : st.queue.Sorted spLE)
    (hok : ∀ tp ∈ st.tree, edgeOK angleLimit tp) :
    (routerStep angleLimit faces lowestZ st).queue.Sorted spLE ∧
    ∀ tp ∈ (routerStep angleLimit faces lowestZ st).tree,
      edgeOK angleLimit tp := by
  obtain ⟨queue, tree⟩ := st
  cases queue with
  | nil => exact ⟨hsort, hok⟩
  | cons p rest =>
      constructor
      · simp only [routerStep]
        exact List.sorted_insertionSort spLE _
      · intro tp htp
        simp only [routerStep] at htp
        simp only [apply_ite RouterState.tree] at htp
        split_ifs at htp with hz hm hlt hmg hmod
        · rcases List.mem_append.mp htp with h | h
          · exact hok tp h
          · rw [List.mem_singleton] at h
            subst h
            intro hmodel _ _
            exact absurd hm hmodel
        · rcases List.mem_append.mp htp with h | h
          · exact hok tp h
          · rw [List.mem_singleton] at h
            subst h
            intro hmodel _ _
            exact absurd hm hmodel
        · rcases List.mem_append.mp htp with h | h
          · exact hok tp h
          · have hcne : (getClosestPointFromPoints (p :: rest) angleLimit
                p).location ≠ p.location := by
              rw [← hmg.2.1]
              exact hmg.2.2
            have hz12 : (getClosestPointFromPoints (p :: rest) angleLimit
                p).location.z ≤ p.location.z := by
              rcases getClosestPointFromPoints_mem (p :: rest) angleLimit p
                with he | he
              · exact absurd (by rw [he]) hcne
              · exact sorted_head_z p rest hsort _ (by simpa using he)
            simp only [List.mem_cons, List.not_mem_nil, or_false] at h
            rcases h with h | h
            · subst h
              unfold edgeOK mkSP2
              dsimp only
              intro _ _ hzlt
              rw [degToRad_90]
              exact ge_of_eq (merge_edge1_angle p.location
                (getClosestPointFromPoints (p :: rest) angleLimit p).location
                angleLimit h0 h2 hzlt)
            · subst h
              unfold edgeOK mkSP2
              dsimp only
              intro _ _ hzlt
              rw [degToRad_90]
              exact ge_of_eq (merge_edge2_angle p.location
                (getClosestPointFromPoints (p :: rest) angleLimit p).location
                angleLimit h0 h2 hzlt hz12)
        · rcases List.mem_append.mp htp with h | h
          · exact hok tp h
          · rw [List.mem_singleton] at h
            subst h
            unfold edgeOK
            dsimp only
            intro _ _ _
            have hne : (getClosestPointOnModel faces angleLimit
                p).location ≠ p.location := by
              rw [← hmod.1]
              exact hmod.2
            exact le_of_lt
              (getClosestPointOnModel_angle faces angleLimit p hne).2
        · rcases List.mem_append.mp htp with h | h
          · exact hok tp h
          · rw [List.mem_singleton] at h
            subst h
            intro _ hplate _
            exact absurd rfl hplate
        · exact hok tp htp

/-- The full routing loop preserves the edge slope invariant: starting from
a sorted queue and an invariant-respecting tree, every edge of a successful
run satisfies `edgeOK`. -/
theorem runRouter_edgeOK (angleLimit : ℝ) (faces : List MeshFace)
    (lowestZ : ℝ) (h0 : 0 ≤ angleLimit) (h2 : angleLimit ≤ π / 2) :
    ∀ (fuel : ℕ) (st : RouterState), st.queue.Sorted spLE →
    (∀ tp ∈ st.tree, edgeOK angleLimit tp) →
    ∀ out, runRouter angleLimit faces lowestZ fuel st = some out →
    ∀ tp ∈ out, edgeOK angleLimit tp := by
  intro fuel
  induction fuel with
  | zero =>
      intro st hs hok out hrun
      unfold runRouter at hrun
      split_ifs at hrun
      rw [Option.some.injEq] at hrun
      subst hrun
      exact hok
  | succ n ih =>
      intro st hs hok out hrun
      unfold runRouter at hrun
      split_ifs at hrun
      · rw [Option.some.injEq] at hrun
        subst hrun
        exact hok
      · obtain ⟨hs2, hok2⟩ :=
          routerStep_edgeOK angleLimit faces lowestZ st h0 h2 hs hok
        exact ih _ hs2 hok2 out hrun

/-- The MODEL point of the C2 counterexample: at `(0,0,2)` with (unnormalised)
vertex normal `(4,0,-3)`, so that the micro-lift edge slopes at
`arccos(4/5) ≈ 36.9°` above horizontal. -/
def c2p : SupportPoint := ⟨⟨0, 0, 2⟩, MODEL, ⟨4, 0, -3⟩⟩

/-- A queue mate fixing `lowestZ = 1/5`; its connector from the lifted point
is the shallow `(8/5, 0, -6/5)`. -/
def c2q : SupportPoint := ⟨⟨12/5, 0, 1/5⟩, MODEL, ⟨0, 0, 1⟩⟩

/-- The lifted COMMON point `c2p.location + unit(c2p.normal)`. -/
def c2lift : SupportPoint := mkSP2 ⟨4/5, 0, 7/5⟩ COMMON

theorem sqrt_4 : Real.sqrt 4 = 2 := by
  rw [show (4:ℝ) = 2 ^ 2 by norm_num]
  exact Real.sqrt_sq (by norm_num)

theorem sqrt_64_25 : Real.sqrt (64/25) = 8/5 := by
  rw [show (64/25:ℝ) = (8/5) ^ 2 by norm_num]
  exact Real.sqrt_sq (by norm_num)

theorem sqrt_36_25 : Real.sqrt (36/25) = 6/5 := by
  rw [show (36/25:ℝ) = (6/5) ^ 2 by norm_num]
  exact Real.sqrt_sq (by norm_num)

theorem sqrt_16_25 : Real.sqrt (16/25) = 4/5 := by
  rw [show (16/25:ℝ) = (4/5) ^ 2 by norm_num]
  exact Real.sqrt_sq (by norm_num)

theorem sqrt_36 : Real.sqrt 36 = 6 := by
  rw [show (36:ℝ) = 6 ^ 2 by norm_num]
  exact Real.sqrt_sq (by norm_num)

theorem c2_cfp :
    getClosestPointFromPoints
      [⟨⟨4/5, 0, 7/5⟩, COMMON, ⟨0, 0, 0⟩⟩,
       ⟨⟨12/5, 0, 1/5⟩, MODEL, ⟨0, 0, 1⟩⟩] (π/4)
      ⟨⟨4/5, 0, 7/5⟩, COMMON, ⟨0, 0, 0⟩⟩ =
    ⟨⟨12/5, 0, 1/5⟩, MODEL, ⟨0, 0, 1⟩⟩ := by
  have h1 := arccos_four_fifths_lt
  have h2 : (90:ℝ) * π / 180 = π / 2 := by ring
  norm_num [getClosestPointFromPoints, mergeScanStep, List.foldl,
    angleOfVectors, Vec.dot, Vec.norm, degToRad, sqrt_4, sqrt_64_25,
    sqrt_64, sqrt_25]
  linarith

theorem c2_step1 :
    routerStep (π/4) [] (1/5) ⟨[c2p, c2q], []⟩ =
      ⟨[c2lift, c2q], [TreePoint.mk c2p c2lift]⟩ := by
  norm_num [routerStep, c2p, c2q, c2lift, mkSP2, Vec.unit, Vec.norm,
    Vec.dvd, sortPointsToSupport, List.insertionSort, List.orderedInsert,
    spLE, spComp, sqrt_25, List.cons_append]

theorem c2_step2 :
    routerStep (π/4) [] (1/5) ⟨[c2lift, c2q], [TreePoint.mk c2p c2lift]⟩ =
      ⟨[c2q], [TreePoint.mk c2p c2lift,
        TreePoint.mk c2lift (mkSP2 ⟨4/5, 0, 1/5⟩ PLATE)]⟩ := by
  norm_num [routerStep, c2_cfp, getClosestPointOnModel, List.foldl,
    routerClosest, c2p, c2q, c2lift, mkSP2, Vec.norm, sortPointsToSupport,
    List.insertionSort, List.orderedInsert, spLE, spComp, sqrt_4,
    sqrt_36_25, sqrt_36, sqrt_25, Real.sqrt_zero, Vec.mk.injEq,
    show COMMON ≠ MODEL from by decide]

theorem c2_step3 :
    routerStep (π/4) [] (1/5)
      ⟨[c2q], [TreePoint.mk c2p c2lift,
        TreePoint.mk c2lift (mkSP2 ⟨4/5, 0, 1/5⟩ PLATE)]⟩ =
      ⟨[], [TreePoint.mk c2p c2lift,
        TreePoint.mk c2lift (mkSP2 ⟨4/5, 0, 1/5⟩ PLATE)]⟩ := by
  norm_num [routerStep, c2q, sortPointsToSupport, List.insertionSort]

theorem c2_run :
    calculateSupportTreePoints 3 (π/4) [] [c2p, c2q] =
      some [TreePoint.mk c2p c2lift,
        TreePoint.mk c2lift (mkSP2 ⟨4/5, 0, 1/5⟩ PLATE)] := by
  have h1 : calculateSupportTreePoints 3 (π/4) [] [c2p, c2q] =
      runRouter (π/4) [] (1/5) 3 ⟨[c2p, c2q], []⟩ := by
    unfold calculateSupportTreePoints
    norm_num [c2q, List.getLast?]
  rw [h1]
  show runRouter (π/4) [] (1/5) (2+1) ⟨[c2p, c2q], []⟩ = _
  unfold runRouter
  rw [if_neg (by simp), c2_step1]
  show runRouter (π/4) [] (1/5) (1+1) ⟨[c2lift, c2q],
    [TreePoint.mk c2p c2lift]⟩ = _
  unfold runRouter
  rw [if_neg (by simp), c2_step2]
  show runRouter (π/4) [] (1/5) (0+1)
    ⟨[c2q], [TreePoint.mk c2p c2lift,
      TreePoint.mk c2lift (mkSP2 ⟨4/5, 0, 1/5⟩ PLATE)]⟩ = _
  unfold runRouter
  rw [if_neg (by simp), c2_step3]
  unfold runRouter
  rw [if_pos rfl]

/-- Formalisation of claim C2 as stated: in any successful router run from a
sorted queue (with `angleLimit` in `[0, π/2]`), every produced tree edge
whose lower endpoint is not PLATE-tagged and descends is at least as steep
as the self-support cone, i.e. its elevation angle is at least
`90° - angleLimit`. -/
def claimC2 : Prop :=
  ∀ (fuel : ℕ) (angleLimit : ℝ) (faces : List MeshFace)
    (initQueue : List SupportPoint) (out : List TreePoint),
    0 ≤ angleLimit → angleLimit ≤ π / 2 → initQueue.Sorted spLE →
    calculateSupportTreePoints fuel angleLimit faces initQueue = some out →
    ∀ tp ∈ out, tp.nextPoint.type ≠ PLATE →
      tp.nextPoint.location.z < tp.point.location.z →
      angleOfVectors (tp.nextPoint.location - tp.point.location)
        (⟨tp.nextPoint.location.x, tp.nextPoint.location.y,
          tp.point.location.z⟩ - tp.point.location) ≥
        degToRad 90 - angleLimit

theorem c2_sorted : ([c2p, c2q] : List SupportPoint).Sorted spLE := by
  refine List.sorted_cons.mpr ⟨?_, List.sorted_singleton _⟩
  intro b hb
  rw [List.mem_singleton] at hb
  subst hb
  rw [spLE_iff]
  exact Or.inl (by norm_num [c2p, c2q])

/-- C2, counterexample: the micro-lift edge from `(0,0,2)` (MODEL, normal
`(4,0,-3)`) to the lifted COMMON point `(4/5,0,7/5)` descends at only
`arccos(4/5) ≈ 36.9°`, below the `45°` floor demanded for
`angleLimit = π/4`, yet its lower endpoint is COMMON, not PLATE. -/
theorem c2_counterexample : ¬ claimC2 := by
  intro h
  have hbad := h 3 (π/4) [] [c2p, c2q] _ (by positivity)
    (by linarith [Real.pi_pos]) c2_sorted c2_run
    (TreePoint.mk c2p c2lift) (by simp)
  have hb2 := hbad (by simp [c2lift, mkSP2])
    (by norm_num [c2p, c2lift, mkSP2])
  have h1 := arccos_four_fifths_lt
  have h2 : (90:ℝ) * π / 180 = π / 2 := by ring
  norm_num [c2p, c2lift, mkSP2, angleOfVectors, Vec.dot, Vec.norm,
    degToRad, Real.sqrt_one, sqrt_16_25, sqrt_16, sqrt_25] at hb2
  linarith

/-- C2 (amended): the slope floor holds for every produced edge whose
*upper* endpoint is not a MODEL sample (micro-lift edges out of MODEL
points follow the vertex normal and may be arbitrarily shallow): in any
successful router run from a sorted queue with `0 ≤ angleLimit ≤ π/2`,
every tree edge with a non-MODEL upper endpoint, a non-PLATE lower
endpoint, and descending geometry has elevation angle at least
`90° - angleLimit`. -/
theorem c2_amended (fuel : ℕ) (angleLimit : ℝ) (faces : List MeshFace)
    (initQueue : List SupportPoint) (out : List TreePoint)
    (h0 : 0 ≤ angleLimit) (h2 : angleLimit ≤ π / 2)
    (hsort : initQueue.Sorted spLE)
    (hrun : calculateSupportTreePoints fuel angleLimit faces initQueue =
      some out) :
    ∀ tp ∈ out, tp.point.type ≠ MODEL → tp.nextPoint.type ≠ PLATE →
      tp.nextPoint.location.z < tp.point.location.z →
      angleOfVectors (tp.nextPoint.location - tp.point.location)
        (⟨tp.nextPoint.location.x, tp.nextPoint.location.y,
          tp.point.location.z⟩ - tp.point.location) ≥
        degToRad 90 - angleLimit := by
  unfold calculateSupportTreePoints at hrun
  intro tp htp
  exact runRouter_edgeOK angleLimit faces _ h0 h2 fuel ⟨initQueue, []⟩
    hsort (fun tp h => absurd h (List.not_mem_nil tp)) out hrun tp htp

/-- Witness for `c2_amended` at the concrete C2 run. -/
theorem c2_amended_witness :
    (0:ℝ) ≤ π/4 ∧ π/4 ≤ π/2 ∧
    ([c2p, c2q] : List SupportPoint).Sorted spLE ∧
    (calculateSupportTreePoints 3 (π/4) [] [c2p, c2q] =
      some [TreePoint.mk c2p c2lift,
        TreePoint.mk c2lift (mkSP2 ⟨4/5, 0, 1/5⟩ PLATE)]) ∧
    (∀ tp ∈ [TreePoint.mk c2p c2lift,
        TreePoint.mk c2lift (mkSP2 ⟨4/5, 0, 1/5⟩ PLATE)],
      tp.point.type ≠ MODEL → tp.nextPoint.type ≠ PLATE →
      tp.nextPoint.location.z < tp.point.location.z →
      angleOfVectors (tp.nextPoint.location - tp.point.location)
        (⟨tp.nextPoint.location.x, tp.nextPoint.location.y,
          tp.point.location.z⟩ - tp.point.location) ≥
        degToRad 90 - π/4) :=
  ⟨by positivity, by linarith [Real.pi_pos], c2_sorted, c2_run,
   c2_amended 3 (π/4) [] [c2p, c2q] _ (by positivity)
     (by linarith [Real.pi_pos]) c2_sorted c2_run⟩

end CleverSupport
